import Mathlib

/-!
Verification development for the matdoesdev multi-protocol portfolio server.

The repository serves a blog over Gemini, Gopher, Finger, Telnet, QOTD, a
small HTTP control endpoint, and a hand-written SSH transport with a TUI
renderer.  This file contains a shallow embedding of the parts of the source
needed to settle the specification claims:

* the SSH wire codec and message model (`src/protocols/ssh/protocol.rs`),
* the SSH record layer (`src/protocols/ssh.rs`,
  `src/protocols/ssh/connection.rs`),
* the TUI element renderer (`src/terminal/elements.rs`),
* the Gemini request validation (`src/protocols/gemini.rs`),
* the Gopher menu formatter (`src/protocols/gopher.rs`),
* the HTTP QOTD control endpoint (`src/protocols/http.rs`).

Modelling conventions: machine integers are `Nat` with explicit `% 2 ^ 32`
(resp. `% 256`) wherever the Rust code casts (`as u32`, `as u8`); `isize`
values are `Int`; byte buffers are `List Nat`; Rust `String` values are
either Lean `String` (text protocols) or their UTF-8 byte lists (SSH wire
data); fallible operations return `Option`; a Rust panic (out-of-bounds
index, `todo!`) is `none`.  The AES-128-CTR keystream and the HMAC-SHA-256
primitive come from external crates, so they are parameters of the record
layer (`ks : Nat → Nat` is the byte keystream determined by key and IV,
`hmacF` the MAC with its key); nothing proved here depends on their
internals beyond the 32-byte HMAC output length, which appears as an
explicit hypothesis.
-/

namespace Ssh

/-! ## Wire codec (src/protocols/ssh/protocol.rs lines 682-736)

`byteorder`-style primitives.  The Rust readers take bytes from a stream and
fail when it ends mid-field; here a reader takes the remaining byte list and
returns the parsed value together with the rest of the list.
-/

/-- Big-endian bytes of a `u32` value; writing a wider value truncates like
`as u32` does. -/
def u32be (n : Nat) : List Nat :=
  [n / 2 ^ 24 % 256, n / 2 ^ 16 % 256, n / 2 ^ 8 % 256, n % 256]

/-- Model of `read_u8`. -/
def readU8 : List Nat → Option (Nat × List Nat)
  | [] => none
  | b :: rest => some (b, rest)

/-- Model of `read_u32::<BE>`. -/
def readU32 : List Nat → Option (Nat × List Nat)
  | b0 :: b1 :: b2 :: b3 :: rest =>
      some (b0 * 2 ^ 24 + b1 * 2 ^ 16 + b2 * 2 ^ 8 + b3, rest)
  | _ => none

/-- Model of reading a `u8` and comparing `!= 0`, as the message decoder does
for boolean fields. -/
def readBool (l : List Nat) : Option (Bool × List Nat) :=
  (readU8 l).map (fun p => (p.1 != 0, p.2))

/-- Model of `read_exact` into a buffer of `k` bytes (also of a loop of `k`
`read_u8` calls, which fails the same way when the input is short). -/
def readExact (k : Nat) (l : List Nat) : Option (List Nat × List Nat) :=
  if k ≤ l.length then some (l.take k, l.drop k) else none

/-- Source `read_bytes`: u32 length prefix, then that many raw octets. -/
def read_bytes (l : List Nat) : Option (List Nat × List Nat) :=
  (readU32 l).bind fun p => readExact p.1 p.2

/-- Source `write_bytes`: u32 length prefix (`len as u32`), then the octets. -/
def write_bytes (b : List Nat) : List Nat :=
  u32be b.length ++ b

/-- Source `read_string`.  Rust additionally runs `String::from_utf8`; a
string is modelled by its UTF-8 byte list, and every byte list written by
`write_string` is the UTF-8 of its string, so the validation step is the
identity on the write-then-read path. -/
def read_string (l : List Nat) : Option (List Nat × List Nat) :=
  read_bytes l

/-- Source `write_string`. -/
def write_string (s : List Nat) : List Nat :=
  write_bytes s

/-- Source `read_name_list`: an empty string decodes to the empty list,
otherwise split on the comma octet 44. -/
def read_name_list (l : List Nat) : Option (List (List Nat) × List Nat) :=
  (read_string l).map fun p => (if p.1 = [] then [] else p.1.splitOn 44, p.2)

/-- Source `write_name_list`: join the names with commas. -/
def write_name_list (ns : List (List Nat)) : List Nat :=
  write_string (List.intercalate [44] ns)

/-- Source `write_mpint` (protocol.rs lines 720-736).  It strips leading zero
octets and then reads `s[i]`; when every octet is zero (including the empty
string) the index is out of bounds, which is the `none` case here (a Rust
panic). -/
def write_mpint (s : List Nat) : Option (List Nat) :=
  let i := (s.takeWhile (fun b => b == 0)).length
  match s[i]? with
  | none => none
  | some b =>
      if b.testBit 7 then
        some (u32be (s.length - i + 1) ++ 0 :: s.drop i)
      else
        some (u32be (s.length - i) ++ s.drop i)

/-- Source `write_payload` (protocol.rs lines 158-179): SSH binary packet
framing.  `padding_length % 256` is the `as u8` cast of the padding count and
`u32be` performs the `as u32` cast of the packet length. -/
def write_payload (payload : List Nat) (cipher_block_key_size : Option Nat) :
    List Nat :=
  let multiple_of := max (cipher_block_key_size.getD 0) 8
  let padding0 := multiple_of - (payload.length + 5) % multiple_of
  let padding_length := if padding0 < 4 then padding0 + multiple_of else padding0
  let packet_length := payload.length + padding_length + 1
  u32be packet_length ++ padding_length % 256 :: payload ++
    List.replicate padding_length 0

/-! ## SSH message model (src/protocols/ssh/protocol.rs lines 8-156) -/

/-- Source `ChannelRequestExtra`. -/
inductive ChannelRequestExtra where
  | Terminal (terminal_type : List Nat)
      (width_columns height_rows width_pixels height_pixels : Nat)
      (terminal_modes : List Nat)
  | WindowChange (width_columns height_rows width_pixels height_pixels : Nat)
  | None
deriving DecidableEq

/-- Source `Message`: the closed tagged union of every SSH message the server
handles, in source order with the source's numeric IDs. -/
inductive Message where
  | Disconnect (reason_code : Nat) (description language_tag : List Nat)
  | Ignore (data : List Nat)
  | Unimplemented (packet_sequence_number : Nat)
  | Debug (always_display : Bool) (message language_tag : List Nat)
  | ServiceRequest (service_name : List Nat)
  | ServiceAccept (service_name : List Nat)
  | KexInit (cookie : List Nat)
      (kex_algorithms server_host_key_algorithms : List (List Nat))
      (encryption_algorithms_client_to_server
        encryption_algorithms_server_to_client : List (List Nat))
      (mac_algorithms_client_to_server
        mac_algorithms_server_to_client : List (List Nat))
      (compression_algorithms_client_to_server
        compression_algorithms_server_to_client : List (List Nat))
      (languages_client_to_server languages_server_to_client : List (List Nat))
      (first_kex_packet_follows : Bool) (reserved : Nat)
  | NewKeys
  | KexEcdhInit (client_public_key : List Nat)
  | KexEcdhReply (server_public_host_key server_public_key signature : List Nat)
  | UserauthRequest (username service_name authentication_method : List Nat)
  | UserauthFailure (authentication_methods : List (List Nat))
      (partial_success : Bool)
  | UserauthSuccess
  | UserauthBanner (message language_tag : List Nat)
  | GlobalRequest (request_name : List Nat) (want_reply : Bool)
  | RequestSuccess
  | RequestFailure
  | ChannelOpen (channel_type : List Nat)
      (sender_channel initial_window_size maximum_packet_size : Nat)
  | ChannelOpenConfirmation
      (recipient_channel sender_channel initial_window_size
        maximum_packet_size : Nat)
  | ChannelOpenFailure (recipient_channel reason_code : Nat)
      (description language_tag : List Nat)
  | ChannelWindowAdjust (recipient_channel bytes_to_add : Nat)
  | ChannelData (recipient_channel : Nat) (data : List Nat)
  | ChannelExtendedData (recipient_channel data_type_code : Nat)
      (data : List Nat)
  | ChannelEof (recipient_channel : Nat)
  | ChannelClose (recipient_channel : Nat)
  | ChannelRequest (recipient_channel : Nat) (request_type : List Nat)
      (want_reply : Bool) (extra : ChannelRequestExtra)
  | ChannelSuccess (recipient_channel : Nat)
  | ChannelFailure (recipient_channel : Nat)
deriving DecidableEq

/-- UTF-8 bytes of the request type string "pty-req". -/
def ptyReqBytes : List Nat := [112, 116, 121, 45, 114, 101, 113]

/-- UTF-8 bytes of the request type string "window-change". -/
def windowChangeBytes : List Nat :=
  [119, 105, 110, 100, 111, 119, 45, 99, 104, 97, 110, 103, 101]

/-- Source `write_message` (protocol.rs lines 429-680).  The
`ChannelRequestExtra::None` arm of `ChannelRequest` is `todo!()` in the
source, i.e. a panic, hence `none` here. -/
def write_message : Message → Option (List Nat)
  | .Disconnect reason_code description language_tag =>
      some ([1] ++ u32be reason_code ++ write_string description ++
        write_string language_tag)
  | .Ignore data => some ([2] ++ write_bytes data)
  | .Unimplemented n => some ([3] ++ u32be n)
  | .Debug always_display message language_tag =>
      some ([4] ++ [if always_display then 1 else 0] ++ write_string message ++
        write_string language_tag)
  | .ServiceRequest service_name => some ([5] ++ write_string service_name)
  | .ServiceAccept service_name => some ([6] ++ write_string service_name)
  | .KexInit cookie kex hk encCS encSC macCS macSC compCS compSC langCS langSC
      first reserved =>
      some ([20] ++ cookie ++ write_name_list kex ++ write_name_list hk ++
        write_name_list encCS ++ write_name_list encSC ++
        write_name_list macCS ++ write_name_list macSC ++
        write_name_list compCS ++ write_name_list compSC ++
        write_name_list langCS ++ write_name_list langSC ++
        [if first then 1 else 0] ++ u32be reserved)
  | .NewKeys => some [21]
  | .KexEcdhInit client_public_key => some ([30] ++ write_bytes client_public_key)
  | .KexEcdhReply khost kpub sig =>
      some ([31] ++ write_bytes khost ++ write_bytes kpub ++ write_bytes sig)
  | .UserauthRequest username service_name method =>
      some ([50] ++ write_string username ++ write_string service_name ++
        write_string method)
  | .UserauthFailure methods partial_success =>
      some ([51] ++ write_name_list methods ++
        [if partial_success then 1 else 0])
  | .UserauthSuccess => some [52]
  | .UserauthBanner message language_tag =>
      some ([53] ++ write_string message ++ write_string language_tag)
  | .GlobalRequest request_name want_reply =>
      some ([80] ++ write_string request_name ++ [if want_reply then 1 else 0])
  | .RequestSuccess => some [81]
  | .RequestFailure => some [82]
  | .ChannelOpen channel_type sender initial maxp =>
      some ([90] ++ write_string channel_type ++ u32be sender ++
        u32be initial ++ u32be maxp)
  | .ChannelOpenConfirmation recipient sender initial maxp =>
      some ([91] ++ u32be recipient ++ u32be sender ++ u32be initial ++
        u32be maxp)
  | .ChannelOpenFailure recipient reason description language_tag =>
      some ([92] ++ u32be recipient ++ u32be reason ++
        write_string description ++ write_string language_tag)
  | .ChannelWindowAdjust recipient bytes_to_add =>
      some ([93] ++ u32be recipient ++ u32be bytes_to_add)
  | .ChannelData recipient data =>
      some ([94] ++ u32be recipient ++ write_bytes data)
  | .ChannelExtendedData recipient code data =>
      some ([95] ++ u32be recipient ++ u32be code ++ write_bytes data)
  | .ChannelEof recipient => some ([96] ++ u32be recipient)
  | .ChannelClose recipient => some ([97] ++ u32be recipient)
  | .ChannelRequest recipient request_type want_reply extra =>
      (match extra with
       | .Terminal tt w h wp hp modes =>
           some ([98] ++ u32be recipient ++ write_string request_type ++
             [if want_reply then 1 else 0] ++ write_string tt ++ u32be w ++
             u32be h ++ u32be wp ++ u32be hp ++ write_bytes modes)
       | .WindowChange w h wp hp =>
           some ([98] ++ u32be recipient ++ write_string request_type ++
             [if want_reply then 1 else 0] ++ u32be w ++ u32be h ++ u32be wp ++
             u32be hp)
       | .None => none)
  | .ChannelSuccess recipient => some ([99] ++ u32be recipient)
  | .ChannelFailure recipient => some ([100] ++ u32be recipient)

/-- Source `read_message` (protocol.rs lines 189-427): the match on the
message-type octet.  Returns the decoded message and the unread remainder of
the input (Rust leaves any trailing bytes in the cursor). -/
def read_message_body (t : Nat) (l : List Nat) : Option (Message × List Nat) :=
  match t with
  | 1 => do
    let (reason_code, l) ← readU32 l
    let (description, l) ← read_string l
    let (language_tag, l) ← read_string l
    pure (.Disconnect reason_code description language_tag, l)
  | 2 => do
    let (data, l) ← read_bytes l
    pure (.Ignore data, l)
  | 3 => do
    let (n, l) ← readU32 l
    pure (.Unimplemented n, l)
  | 4 => do
    let (always_display, l) ← readBool l
    let (message, l) ← read_string l
    let (language_tag, l) ← read_string l
    pure (.Debug always_display message language_tag, l)
  | 5 => do
    let (service_name, l) ← read_string l
    pure (.ServiceRequest service_name, l)
  | 6 => do
    let (service_name, l) ← read_string l
    pure (.ServiceAccept service_name, l)
  | 20 => do
    let (cookie, l) ← readExact 16 l
    let (kex, l) ← read_name_list l
    let (hk, l) ← read_name_list l
    let (encCS, l) ← read_name_list l
    let (encSC, l) ← read_name_list l
    let (macCS, l) ← read_name_list l
    let (macSC, l) ← read_name_list l
    let (compCS, l) ← read_name_list l
    let (compSC, l) ← read_name_list l
    let (langCS, l) ← read_name_list l
    let (langSC, l) ← read_name_list l
    let (first, l) ← readBool l
    let (reserved, l) ← readU32 l
    pure (.KexInit cookie kex hk encCS encSC macCS macSC compCS compSC langCS
      langSC first reserved, l)
  | 21 => pure (.NewKeys, l)
  | 30 => do
    let (k, l) ← read_bytes l
    pure (.KexEcdhInit k, l)
  | 31 => do
    let (khost, l) ← read_bytes l
    let (kpub, l) ← read_bytes l
    let (sig, l) ← read_bytes l
    pure (.KexEcdhReply khost kpub sig, l)
  | 50 => do
    let (username, l) ← read_string l
    let (service_name, l) ← read_string l
    let (method, l) ← read_string l
    pure (.UserauthRequest username service_name method, l)
  | 51 => do
    let (methods, l) ← read_name_list l
    let (partial_success, l) ← readBool l
    pure (.UserauthFailure methods partial_success, l)
  | 52 => pure (.UserauthSuccess, l)
  | 53 => do
    let (message, l) ← read_string l
    let (language_tag, l) ← read_string l
    pure (.UserauthBanner message language_tag, l)
  | 80 => do
    let (request_name, l) ← read_string l
    let (want_reply, l) ← readBool l
    pure (.GlobalRequest request_name want_reply, l)
  | 81 => pure (.RequestSuccess, l)
  | 82 => pure (.RequestFailure, l)
  | 90 => do
    let (channel_type, l) ← read_string l
    let (sender, l) ← readU32 l
    let (initial, l) ← readU32 l
    let (maxp, l) ← readU32 l
    pure (.ChannelOpen channel_type sender initial maxp, l)
  | 91 => do
    let (recipient, l) ← readU32 l
    let (sender, l) ← readU32 l
    let (initial, l) ← readU32 l
    let (maxp, l) ← readU32 l
    pure (.ChannelOpenConfirmation recipient sender initial maxp, l)
  | 92 => do
    let (recipient, l) ← readU32 l
    let (reason, l) ← readU32 l
    let (description, l) ← read_string l
    let (language_tag, l) ← read_string l
    pure (.ChannelOpenFailure recipient reason description language_tag, l)
  | 93 => do
    let (recipient, l) ← readU32 l
    let (bytes_to_add, l) ← readU32 l
    pure (.ChannelWindowAdjust recipient bytes_to_add, l)
  | 94 => do
    let (recipient, l) ← readU32 l
    let (data, l) ← read_bytes l
    pure (.ChannelData recipient data, l)
  | 95 => do
    let (recipient, l) ← readU32 l
    let (code, l) ← readU32 l
    let (data, l) ← read_bytes l
    pure (.ChannelExtendedData recipient code data, l)
  | 96 => do
    let (recipient, l) ← readU32 l
    pure (.ChannelEof recipient, l)
  | 97 => do
    let (recipient, l) ← readU32 l
    pure (.ChannelClose recipient, l)
  | 98 => do
    let (recipient, l) ← readU32 l
    let (request_type, l) ← read_string l
    let (want_reply, l) ← readBool l
    if request_type = ptyReqBytes then
      let (tt, l) ← read_string l
      let (w, l) ← readU32 l
      let (h, l) ← readU32 l
      let (wp, l) ← readU32 l
      let (hp, l) ← readU32 l
      let (modes, l) ← read_bytes l
      pure (.ChannelRequest recipient request_type want_reply
        (.Terminal tt w h wp hp modes), l)
    else if request_type = windowChangeBytes then
      let (w, l) ← readU32 l
      let (h, l) ← readU32 l
      let (wp, l) ← readU32 l
      let (hp, l) ← readU32 l
      pure (.ChannelRequest recipient request_type want_reply
        (.WindowChange w h wp hp), l)
    else
      pure (.ChannelRequest recipient request_type want_reply .None, l)
  | 99 => do
    let (recipient, l) ← readU32 l
    pure (.ChannelSuccess recipient, l)
  | 100 => do
    let (recipient, l) ← readU32 l
    pure (.ChannelFailure recipient, l)
  | _ => none

/-- Source `read_message`: read the message-type octet, then decode the
corresponding body. -/
def read_message (l : List Nat) : Option (Message × List Nat) := do
  let (t, l) ← readU8 l
  read_message_body t l

/-- Well-formedness of a list of names for the name-list codec: names are
comma-free, the list is not the singleton empty name (whose joined form is
the empty string, which decodes to the empty list), and the joined form fits
the u32 length prefix. -/
def wfNames (ns : List (List Nat)) : Prop :=
  (∀ n ∈ ns, (44 : Nat) ∉ n) ∧ ns ≠ [[]] ∧
    (List.intercalate [44] ns).length < 2 ^ 32

instance (ns : List (List Nat)) : Decidable (wfNames ns) := by
  unfold wfNames; infer_instance

/-- Shorthand for a `u32` value in range. -/
def wfU32 (n : Nat) : Prop := n < 2 ^ 32

instance (n : Nat) : Decidable (wfU32 n) := by
  unfold wfU32; infer_instance

/-- Shorthand for a byte string whose length fits the u32 length prefix. -/
def wfBytes (b : List Nat) : Prop := b.length < 2 ^ 32

instance (b : List Nat) : Decidable (wfBytes b) := by
  unfold wfBytes; infer_instance

/-- Pairing condition between a `ChannelRequest`'s request type and its extra
shape: the decoder picks the shape by looking at the request type, and the
`None` shape is excluded because its write arm is `todo!()`. -/
def ChannelRequestExtra.wfFor (request_type : List Nat) :
    ChannelRequestExtra → Prop
  | .Terminal tt w h wp hp modes =>
      request_type = ptyReqBytes ∧ wfBytes tt ∧ wfU32 w ∧ wfU32 h ∧
        wfU32 wp ∧ wfU32 hp ∧ wfBytes modes
  | .WindowChange w h wp hp =>
      request_type = windowChangeBytes ∧ wfU32 w ∧ wfU32 h ∧ wfU32 wp ∧
        wfU32 hp
  | .None => False

instance (rt : List Nat) (e : ChannelRequestExtra) :
    Decidable (e.wfFor rt) := by
  cases e <;> simp only [ChannelRequestExtra.wfFor] <;> infer_instance

/-- Any Rust value of the `Message` type satisfies these conditions by
construction: `u32` fields are in range, the cookie is 16 octets, byte and
string fields fit their u32 length prefixes.  On top of that, name lists must
survive the join/split codec (`wfNames`) and a `ChannelRequest` must pair
each extra shape with its request type, with the `None` shape excluded
because its write arm is `todo!()`. -/
def Message.wf : Message → Prop
  | .Disconnect reason_code description language_tag =>
      wfU32 reason_code ∧ wfBytes description ∧ wfBytes language_tag
  | .Ignore data => wfBytes data
  | .Unimplemented n => wfU32 n
  | .Debug _ message language_tag => wfBytes message ∧ wfBytes language_tag
  | .ServiceRequest s => wfBytes s
  | .ServiceAccept s => wfBytes s
  | .KexInit cookie kex hk encCS encSC macCS macSC compCS compSC langCS langSC
      _ reserved =>
      cookie.length = 16 ∧ wfNames kex ∧ wfNames hk ∧ wfNames encCS ∧
        wfNames encSC ∧ wfNames macCS ∧ wfNames macSC ∧ wfNames compCS ∧
        wfNames compSC ∧ wfNames langCS ∧ wfNames langSC ∧ wfU32 reserved
  | .NewKeys => True
  | .KexEcdhInit k => wfBytes k
  | .KexEcdhReply khost kpub sig => wfBytes khost ∧ wfBytes kpub ∧ wfBytes sig
  | .UserauthRequest u s m => wfBytes u ∧ wfBytes s ∧ wfBytes m
  | .UserauthFailure methods _ => wfNames methods
  | .UserauthSuccess => True
  | .UserauthBanner message language_tag =>
      wfBytes message ∧ wfBytes language_tag
  | .GlobalRequest request_name _ => wfBytes request_name
  | .RequestSuccess => True
  | .RequestFailure => True
  | .ChannelOpen channel_type sender initial maxp =>
      wfBytes channel_type ∧ wfU32 sender ∧ wfU32 initial ∧ wfU32 maxp
  | .ChannelOpenConfirmation recipient sender initial maxp =>
      wfU32 recipient ∧ wfU32 sender ∧ wfU32 initial ∧ wfU32 maxp
  | .ChannelOpenFailure recipient reason description language_tag =>
      wfU32 recipient ∧ wfU32 reason ∧ wfBytes description ∧
        wfBytes language_tag
  | .ChannelWindowAdjust recipient bytes_to_add =>
      wfU32 recipient ∧ wfU32 bytes_to_add
  | .ChannelData recipient data => wfU32 recipient ∧ wfBytes data
  | .ChannelExtendedData recipient code data =>
      wfU32 recipient ∧ wfU32 code ∧ wfBytes data
  | .ChannelEof recipient => wfU32 recipient
  | .ChannelClose recipient => wfU32 recipient
  | .ChannelRequest recipient request_type _ extra =>
      wfU32 recipient ∧ wfBytes request_type ∧ extra.wfFor request_type
  | .ChannelSuccess recipient => wfU32 recipient
  | .ChannelFailure recipient => wfU32 recipient

instance (m : Message) : Decidable m.wf := by
  cases m <;> simp only [Message.wf] <;> infer_instance

/-! ## SSH record layer

`Ctr128BE<Aes128>` is a stream cipher: `apply_keystream` XORs the buffer with
the keystream determined by key and IV, advancing an internal offset.  The
cipher state is therefore modelled by the keystream function `ks` (fixed at
`set_cipher`/`new` time) together with the current byte offset. -/

/-- Stream-cipher application from offset `pos`: byte `i` of the buffer is
XORed with keystream byte `pos + i`. -/
def applyKeystream (ks : Nat → Nat) : Nat → List Nat → List Nat
  | _, [] => []
  | pos, b :: rest => (b ^^^ ks pos) :: applyKeystream ks (pos + 1) rest

/-- Source `ReadConnection` (connection.rs lines 24-28): the decryption
cipher (`none` before `set_cipher`, otherwise its keystream offset) and the
client-to-server integrity key (`none` before keys are installed).  There is
no receive sequence-number field in the source. -/
structure ReadConnection where
  cipher : Option Nat
  integrity_key : Option (List Nat)
deriving DecidableEq

/-- Source `ReadConnection::read_payload` (connection.rs lines 55-95),
reading from `input`: decrypt the 4-byte length, read and decrypt the packet,
split off padding-length, payload and padding, and — when an integrity key is
installed — read 32 MAC bytes, which the source never compares against
anything.  Returns the payload, the updated connection and the unconsumed
input.  The `padding_length + 1 > packet_length` case is `none`: the Rust
`usize` subtraction underflows (panic in debug builds, a failing read in
release builds). -/
def read_payload (ks : Nat → Nat) (c : ReadConnection) (input : List Nat) :
    Option (List Nat × ReadConnection × List Nat) := do
  let (packetLengthRaw, input) ← readExact 4 input
  let (packetLengthBytes, c) :=
    match c.cipher with
    | some pos => (applyKeystream ks pos packetLengthRaw,
        { c with cipher := some (pos + 4) })
    | none => (packetLengthRaw, c)
  let (packet_length, _) ← readU32 packetLengthBytes
  let (packetRaw, input) ← readExact packet_length input
  let (packet, c) :=
    match c.cipher with
    | some pos => (applyKeystream ks pos packetRaw,
        { c with cipher := some (pos + packet_length) })
    | none => (packetRaw, c)
  let (padding_length, cursor) ← readU8 packet
  if packet_length < padding_length + 1 then
    none
  else
    let payload_length := packet_length - padding_length - 1
    let (payload, cursor) ← readExact payload_length cursor
    let (_padding, _) ← readExact padding_length cursor
    match c.integrity_key with
    | some _ => do
        let (_mac, input) ← readExact 32 input
        pure (payload, c, input)
    | none => pure (payload, c, input)

/-- Source `EncryptedConnection` (ssh.rs lines 106-112): the
server-to-client cipher offset, integrity key and sequence number. -/
structure EncryptedConnection where
  pos : Nat
  integrity_key_server_to_client : List Nat
  sequence_number_server_to_client : Nat
deriving DecidableEq

/-- Source `EncryptedConnection::write_packet` (ssh.rs lines 140-154):
frame the message with `write_payload` (block size 16 =
`Ctr128BE::<Aes128>::key_size()`), MAC the sequence number followed by the
cleartext packet, encrypt the packet, and emit ciphertext followed by tag.
`hmacF` is the HMAC-SHA-256 primitive applied to the integrity key. -/
def EncryptedConnection.write_packet (ks : Nat → Nat)
    (hmacF : List Nat → List Nat → List Nat) (c : EncryptedConnection)
    (packet : Message) : Option (List Nat × EncryptedConnection) := do
  let payload ← write_message packet
  let bytes := write_payload payload (some 16)
  let tag := hmacF c.integrity_key_server_to_client
    (u32be c.sequence_number_server_to_client ++ bytes)
  pure (applyKeystream ks c.pos bytes ++ tag,
    { c with pos := c.pos + bytes.length,
             sequence_number_server_to_client :=
               c.sequence_number_server_to_client + 1 })

/-- Source handling of the client KexInit in `connection` (ssh.rs lines
204-209): the `KexInit` arm contains only the comment "check to make sure we
support the algorithms" and otherwise proceeds; every other message is
`bail!("expected KexInit")`. -/
def checkClientKexInit (m : Message) : Except String Unit :=
  match m with
  | .KexInit .. => .ok ()
  | _ => .error "expected KexInit"

/-- A concrete all-zero keystream (XOR with it is the identity), standing in
for one matching AES-128-CTR key/IV pair on both sides. -/
def ksZero : Nat → Nat := fun _ => 0

/-- A concrete HMAC stand-in with the HMAC-SHA-256 output length. -/
def hmacZero : List Nat → List Nat → List Nat := fun _ _ => List.replicate 32 0

/-- One record having been processed by the read path: the record was
produced by the encrypted write path from the matching (all-zero-keystream)
key at the receiver's current cipher offset with some sequence number, and
`read_payload` consumed it from state `s`, ending in state `s'`. -/
def RecvStep (s s' : ReadConnection) : Prop :=
  ∃ (m : Message) (n p : Nat) (wire : List Nat)
    (c' : EncryptedConnection) (pl : List Nat),
    s.cipher = some p ∧
    EncryptedConnection.write_packet ksZero hmacZero ⟨p, [], n⟩ m =
      some (wire, c') ∧
    read_payload ksZero s wire = some (pl, s', [])

end Ssh

namespace Terminal

/-! ## TUI element tree (src/terminal/elements.rs)

`isize` coordinates are `Int`; `usize` widths and heights are `Nat`.  Where
the Rust code casts between them (`as isize`, `as usize`) the model uses
`Int.toNat` and `(· : Int)` coercions; these agree with release-mode Rust for
all in-range values.  Besides the returned ANSI byte buffer, the model keeps
a specification-only log of every word emission `(parent rectangle, start
position, word)` appended exactly when `flush_word` writes the word into the
result buffer; the log records what the source writes and where, and is used
to state the word-wrap claims. -/

/-- Source `Location` (terminal/mod.rs lines 26-34). -/
inductive Location where
  | Index
  | Blog
  | Projects
  | BlogPost (slug : String)
deriving DecidableEq

/-- Source `Position`. -/
structure Position where
  x : Int
  y : Int
deriving DecidableEq

/-- Source `Rectangle`. -/
structure Rectangle where
  left : Int
  top : Int
  width : Nat
  height : Nat
deriving DecidableEq

/-- Source `Data`: the link side-data accumulated by a render pass. -/
structure Data where
  links : List (Location × List Position)
  link_index : Option Nat
deriving DecidableEq

/-- A logged word emission: the rectangle in force, the position the word was
written at, and the word. -/
abbrev Emit := Rectangle × Position × List Char

/-- Render-pass state: cursor position, link data, and the emission log. -/
structure RState where
  pos : Position
  data : Data
  log : List Emit
deriving DecidableEq

/-- Source `RESET`. -/
def RESET : String := "\x1b[m"

/-- Source `move_cursor`: 1-indexed CSI cursor positioning. -/
def move_cursor (pos : Position) : String :=
  "\x1b[" ++ toString (pos.y + 1) ++ ";" ++ toString (pos.x + 1) ++ "H"

/-- Source `flush_word` (elements.rs lines 59-81).  Returns the position the
word starts at (after the wrap check), the final position, whether the word
was inside the window, and the text pushed onto the result. -/
def flush_word (pos : Position) (word : List Char)
    (parent_rect window : Rectangle) : Position × Position × Bool × String :=
  let word_length : Int := word.length
  let start :=
    if parent_rect.left + (parent_rect.width : Int) < pos.x + word_length then
      Position.mk parent_rect.left (pos.y + 1)
    else
      pos
  let in_window := decide (0 ≤ start.y ∧ start.y < (window.height : Int))
  let txt := if in_window then move_cursor start ++ String.mk word else ""
  (start, Position.mk (start.x + word_length) start.y, in_window, txt)

/-- State of the `Element::Text` rendering loop: the result buffer, the
pending word, and the render state. -/
structure TState where
  out : String
  word : List Char
  st : RState
deriving DecidableEq

/-- A `flush_word` call made by the `Text` arm: push the word's text, clear
the word, record the emission in the log when it was written. -/
def doFlush (parent_rect window : Rectangle) (t : TState) : TState × Bool :=
  let r := flush_word t.st.pos t.word parent_rect window
  (⟨t.out ++ r.2.2.2, [],
    { t.st with
      pos := r.2.1,
      log := if r.2.2.1 then t.st.log ++ [(parent_rect, r.1, t.word)]
             else t.st.log }⟩, r.2.2.1)

/-- One character of the `Element::Text` loop (elements.rs lines 95-113):
space and tab flush the pending word and advance the cursor (emitting the
whitespace only when inside the window), newline flushes and moves to the
left edge of the next line, anything else extends the pending word. -/
def textStep (parent_rect window : Rectangle) (t : TState) (c : Char) :
    TState :=
  if c = ' ' then
    let (t, iw) := doFlush parent_rect window t
    let t := if iw then { t with out := t.out ++ " " } else t
    { t with st := { t.st with pos := ⟨t.st.pos.x + 1, t.st.pos.y⟩ } }
  else if c = '\t' then
    let (t, iw) := doFlush parent_rect window t
    let t := if iw then { t with out := t.out ++ "    " } else t
    { t with st := { t.st with pos := ⟨t.st.pos.x + 4, t.st.pos.y⟩ } }
  else if c = '\n' then
    let (t, _) := doFlush parent_rect window t
    { t with st := { t.st with pos := ⟨parent_rect.left, t.st.pos.y + 1⟩ } }
  else
    { t with word := t.word ++ [c] }

/-- Source `Element` (elements.rs lines 4-30).  The `Rectangle` variant is
spelled `RectangleE` because the coordinate structure already uses the
name. -/
inductive Element where
  | Text (s : String)
  | HorizontallyCentered (inner : Element)
  | VerticallyCentered (inner : Element)
  | RectangleE (elements : List Element) (rect : Rectangle)
  | Container (elements : List Element)
  | Link (inner : Element) (location : Location)
  | ExternalLink (inner : Element) (url : String)
  | Formatted (inner : Element) (format : String)

/-- Inclusive `isize` range `a..=b`, empty when `b < a`. -/
def intRangeIncl (a b : Int) : List Int :=
  (List.range (b + 1 - a).toNat).map (fun i => a + i)

/-- Source `Element::render` (elements.rs lines 84-205).  Takes the element,
the parent rectangle, the window, and the render state; returns the produced
ANSI string and the updated state.  The centering variants first render the
inner element as a dry run against a cloned `Data` whose result string is
discarded (so neither its link data nor its emissions survive, but its final
cursor position does, exactly as in the source). -/
def render (e : Element) (parent_rect window : Rectangle) (st : RState) :
    String × RState :=
  match e with
  | .Text s =>
      let t := s.data.foldl (textStep parent_rect window) ⟨"", [], st⟩
      let t := (doFlush parent_rect window t).1
      (t.out, t.st)
  | .HorizontallyCentered inner =>
      let dry := render inner parent_rect window st
      let width : Int :=
        if st.pos.y = dry.2.pos.y then dry.2.pos.x - st.pos.x
        else (parent_rect.width : Int)
      let left := parent_rect.left +
        Int.tdiv ((parent_rect.width : Int) - width) 2
      let rect : Rectangle := ⟨left, parent_rect.top, width.toNat,
        parent_rect.height⟩
      render inner rect window { st with pos := ⟨rect.left, dry.2.pos.y⟩ }
  | .VerticallyCentered inner =>
      let dry := render inner parent_rect window st
      let dy := dry.2.pos.y - st.pos.y
      let height := min (if dy < 0 then parent_rect.height else dy.toNat)
        parent_rect.height
      let top := parent_rect.top +
        Int.tdiv ((parent_rect.height : Int) - (height : Int)) 2
      let rect : Rectangle := ⟨parent_rect.left, top, parent_rect.width,
        height⟩
      render inner rect window { st with pos := ⟨dry.2.pos.x, rect.top⟩ }
  | .RectangleE elements rect =>
      elements.attach.foldl
        (fun acc c =>
          let r := render c.1 rect window acc.2
          (acc.1 ++ r.1, r.2))
        ("", st)
  | .Container elements =>
      elements.attach.foldl
        (fun acc c =>
          let r := render c.1 parent_rect window acc.2
          (acc.1 ++ r.1, r.2))
        ("", st)
  | .Link inner location =>
      let start := st.pos
      let selected := st.data.link_index = some st.data.links.length
      let r := render inner parent_rect window st
      let positions := (intRangeIncl start.x r.2.pos.x).flatMap
        (fun x => (intRangeIncl start.y r.2.pos.y).map
          (fun y => Position.mk x y))
      ((if selected then "\x1b[1m" else "") ++ r.1 ++
         (if selected then RESET else ""),
       { r.2 with data := { r.2.data with
           links := r.2.data.links ++ [(location, positions)] } })
  | .ExternalLink inner url =>
      let r := render inner parent_rect window st
      ("\x1b[4m" ++ "\x1b]8;;" ++ url ++ "\x1b\\" ++ r.1 ++
        "\x1b]8;;\x1b\\" ++ RESET, r.2)
  | .Formatted inner format =>
      let r := render inner parent_rect window st
      ("\x1b[" ++ format ++ "m" ++ r.1 ++ RESET, r.2)
decreasing_by
  all_goals simp_wf
  all_goals first
    | omega
    | (have hlt := List.sizeOf_lt_of_mem c.2; omega)

/-- Geometry of a logged word emission: either the word ends at or before
the right edge of the rectangle in force, or it was wrapped and starts at
the rectangle's left edge. -/
def emitOk (e : Emit) : Prop :=
  e.2.1.x + e.2.2.length ≤ e.1.left + e.1.width ∨ e.2.1.x = e.1.left

end Terminal

/-! ## Shared constants and a model of std::path components -/

/-- Crate-level `HOSTNAME` (main.rs line 12). -/
def HOSTNAME : String := "matdoes.dev"

/-- Model of `str::contains(char)` by the character list (the built-in
`String.contains` iterates by byte position, which the kernel cannot
reduce). -/
def strContains (s : String) (c : Char) : Bool :=
  s.data.contains c

/-- Model of `str::starts_with` by the character list. -/
def strStartsWith (s pre : String) : Bool :=
  pre.data.isPrefixOf s.data

/-- Model of `str::ends_with` by the character list. -/
def strEndsWith (s suf : String) : Bool :=
  suf.data.isSuffixOf s.data

/-- Model of `str::trim` by the character list: drop whitespace from both
ends. -/
def strTrim (s : String) : String :=
  String.mk (((s.data.dropWhile Char.isWhitespace).reverse.dropWhile
    Char.isWhitespace).reverse)

/-- Split a string at every occurrence of a character. -/
def splitOnChar (c : Char) (s : String) : List String :=
  (s.data.splitOn c).map String.mk

/-- Model of `Path::new(base).join(p)`: an absolute `p` replaces the base. -/
def pathJoin (base p : String) : String :=
  if strStartsWith p "/" then p else base ++ "/" ++ p

/-- Model of `Path::components()` as component strings: a leading root
becomes the `"/"` component (`Component::RootDir`), empty segments and inner
`"."` segments are normalized away. -/
def pathComponents (p : String) : List String :=
  (if strStartsWith p "/" then ["/"] else []) ++
    (splitOnChar '/' p).filter (fun c => decide (c ≠ "" ∧ c ≠ "."))

/-- Whether a component string is `Component::Normal`. -/
def componentIsNormal (c : String) : Bool :=
  decide (c ≠ "/" ∧ c ≠ "..")

/-- Model of Rust `str::lines`: split on newline, no trailing empty line for
a trailing newline, a final carriage return of each line stripped. -/
def rustLines (s : String) : List String :=
  let parts := splitOnChar '\n' s
  let parts := if parts.getLast? = some "" then parts.dropLast else parts
  parts.map (fun l => if strEndsWith l "\r" then l.dropRight 1 else l)

namespace Gemini

/-! ## Gemini frontend (src/protocols/gemini.rs) -/

/-- Source `BIND_PORT` for Gemini. -/
def BIND_PORT : Nat := 1965

/-- Source `INDEX_GMI` (gemini.rs lines 27-47). -/
def INDEX_GMI : String :=
  "```matdoesdev\n" ++
  "                       888        888                                 888                   \n" ++
  "                       888        888                                 888                   \n" ++
  "                       888        888                                 888                   \n" ++
  "88888b.d88b.   8888b.  888888 .d88888  .d88b.   .d88b.  .d8888b   .d88888  .d88b.  888  888 \n" ++
  "888 \"888 \"88b     \"88b 888   d88\" 888 d88\"\"88b d8P  Y8b 88K      d88\" 888 d8P  Y8b 888  888 \n" ++
  "888  888  888 .d888888 888   888  888 888  888 88888888 \"Y8888b. 888  888 88888888 Y88  88P \n" ++
  "888  888  888 888  888 Y88b. Y88b 888 Y88..88P Y8b.          X88 Y88b 888 Y8b.      Y8bd8P  \n" ++
  "888  888  888 \"Y888888  \"Y888 \"Y88888  \"Y88P\"   \"Y8888   88888P\x27  \"Y88888  \"Y8888    Y88P\n" ++
  "```\n" ++
  "\n" ++
  "I\x27m mat, I do full-stack software development.\n" ++
  "This portfolio contains my blog posts and links to some of the projects I\x27ve made.\n" ++
  "\n" ++
  "=> blog 📝 Blog\n" ++
  "=> projects 💻 Projects\n" ++
  "\n" ++
  "=> https://github.com/mat-1 GitHub\n" ++
  "=> https://matrix.to/#/@mat:matdoes.dev Matrix\n" ++
  "=> https://ko-fi.com/matdoesdev Ko-fi (donate)\n"

/-- Source `Gemini`: precomputed gemtext views.  The `posts_gmi` HashMap is
an association list (`HashMap::get` = `List.lookup`). -/
structure Gemini where
  blog_gmi : String
  posts_gmi : List (String × String)
  projects_gmi : String

/-- A parsed URL as the `url` crate presents it to `respond`: scheme, host
(`host_str`), explicit port, and path. -/
structure Url where
  scheme : String
  host : Option String
  port : Option Nat
  path : String

/-- The content-lookup block of `respond` (gemini.rs lines 325-375): the
match on `url.path()`.  `fs` models `tokio::fs::File::open` plus
`read_to_end` (`none` = open failed) and `mime` models
`mime_guess::from_path(..).first_or_octet_stream()`. -/
def respondLookup (g : Gemini) (fs : String → Option String)
    (mime : String → String) (path : String) : String :=
  if path = "/" ∨ path = "" then "20 text/gemini\r\n" ++ INDEX_GMI ++ "\n"
  else if path = "/blog" then "20 text/gemini\r\n" ++ g.blog_gmi ++ "\n"
  else if path = "/projects" then "20 text/gemini\r\n" ++ g.projects_gmi ++ "\n"
  else
    let slug := if strStartsWith path "/" then path.drop 1 else path
    if strContains slug '/' then
      let joined := pathJoin "media" slug
      if !(pathComponents joined).all componentIsNormal then
        "inyaa~ >_<\tfake\t(NULL)\t0\r\n"
      else
        match fs joined with
        | none => "iNot found\tfake\t(NULL)\t0\r\n"
        | some content => "20 " ++ mime joined ++ "\r\n" ++ content
    else
      match List.lookup slug g.posts_gmi with
      | some post => "20 text/gemini\r\n" ++ post ++ "\r\n"
      | none => "51 Not found\r\n"

/-- URL validation and dispatch of `respond` (gemini.rs lines 315-375), after
the request has been read, decoded and parsed: non-gemini scheme, then host,
then port, each an early `53` return, then the path match. -/
def respond (g : Gemini) (fs : String → Option String)
    (mime : String → String) (url : Url) : String :=
  if url.scheme ≠ "gemini" then "53 Request is not a Gemini URL\r\n"
  else if url.host ≠ some HOSTNAME then "53 Host doesn\x27t match\r\n"
  else if url.port.getD BIND_PORT ≠ BIND_PORT then "53 Port doesn\x27t match\r\n"
  else respondLookup g fs mime url.path

end Gemini

namespace Gopher

/-! ## Gopher menus (src/protocols/gopher.rs) -/

/-- Source `BIND_PORT` for Gopher (the release port; debug builds remap to
7070). -/
def BIND_PORT : Nat := 70

/-- Source `GopherBuffer`: pending plain text and emitted menu lines. -/
structure GopherBuffer where
  buffer : String
  out : String

/-- Source `GopherBuffer::flush` (gopher.rs lines 90-97): each pending line
is trimmed and emitted as an `i` menu line. -/
def GopherBuffer.flush (b : GopherBuffer) : GopherBuffer :=
  ⟨"", b.out ++ String.join ((rustLines b.buffer).map
    (fun l => "i" ++ strTrim l ++ "\tfake\tnull\t0\r\n"))⟩

/-- Source `GopherBuffer::text`. -/
def GopherBuffer.text (b : GopherBuffer) (content : String) : GopherBuffer :=
  { b with buffer := b.buffer ++ content }

/-- Source `GopherBuffer::line` (gopher.rs lines 79-88). -/
def GopherBuffer.line (b : GopherBuffer) (content : String) : GopherBuffer :=
  let b := b.flush
  if strContains content '\n' then
    { b with out := b.out ++ String.join ((rustLines content).map
        (fun l => "i" ++ l ++ "\tfake\tnull\t0\r\n")) }
  else
    { b with out := b.out ++ "i" ++ content ++ "\tfake\tnull\t0\r\n" }

/-- Source `GopherBuffer::link` (gopher.rs lines 99-105): a type-`1` selector
line per line of the text. -/
def GopherBuffer.link (b : GopherBuffer) (href text : String) : GopherBuffer :=
  let b := b.flush
  { b with out := b.out ++ String.join ((rustLines text).map
      (fun l => "1" ++ l ++ "\t" ++ href ++ "\t" ++ HOSTNAME ++ "\t" ++
        toString BIND_PORT ++ "\r\n")) }

/-- Source `Display for GopherBuffer` (gopher.rs lines 122-128): flush, then
append `\r\n` and the terminating dot. -/
def GopherBuffer.toOutput (b : GopherBuffer) : String :=
  b.flush.out ++ "\r\n."

/-- The blog-index fields of a crawled `Post`: title, slug, and the
`%Y-%m-%d` rendering of its `published` timestamp (the only use the Gopher
blog index makes of the date). -/
structure Post where
  title : String
  slug : String
  published_ymd : String

/-- The `blog_content` thread of `Gopher::generate` (gopher.rs lines
143-153, 310-311): a `# Blog` line, a blank line, one type-`1` link per post
with display string `date - title` and selector `/slug`, rendered through
`Display`. -/
def blog_content (blog : List Post) : String :=
  let b : GopherBuffer := ⟨"", ""⟩
  let b := b.line "# Blog"
  let b := b.line ""
  let b := blog.foldl
    (fun b post =>
      b.link ("/" ++ post.slug) (post.published_ymd ++ " - " ++ post.title)) b
  b.toOutput

/-- Source `Gopher`: the precomputed menus. -/
structure Gopher where
  index_content : String
  blog_content : String
  posts_content : List (String × String)
  projects_content : String

/-- Source `respond` (gopher.rs lines 351-407) after the retrieval string has
been read: the match on the selector. -/
def respond (g : Gopher) (fs : String → Option String)
    (retreival_string : String) : String :=
  if retreival_string = "/" ∨ retreival_string = "" then g.index_content
  else if retreival_string = "/blog" then g.blog_content
  else if retreival_string = "/projects" then g.projects_content
  else
    let slug := if strStartsWith retreival_string "/" then
      retreival_string.drop 1 else retreival_string
    if strContains slug '/' then
      let joined := pathJoin "media" slug
      if (pathComponents joined).any componentIsNormal then
        "inyaa~ >_<\tfake\t(NULL)\t0\r\n"
      else
        match fs joined with
        | none => "iNot found\tfake\t(NULL)\t0\r\n"
        | some content => content ++ "\r\n"
    else
      match List.lookup slug g.posts_content with
      | some post => post
      | none => "iNot found\tfake\t(NULL)\t0\r\n"

end Gopher

namespace Http

/-! ## HTTP QOTD control endpoint (src/protocols/http.rs) -/

/-- Model of `str::split_once(c)`, defaulted to `(s, "")` when the separator
is absent, as both call sites in `respond` do. -/
def splitOnceChar (c : Char) (s : String) : String × String :=
  match splitOnChar c s with
  | [] => (s, "")
  | [x] => (x, "")
  | x :: rest => (x, String.intercalate (String.singleton c) rest)

/-- Query-parameter pairs of `respond` (http.rs lines 115-122): split the
query string on `&`, each pair on the first `=`. -/
def queryParams (query_string : String) : List (String × String) :=
  (splitOnChar '&' query_string).map (fun pair => splitOnceChar '=' pair)

/-- Model of `HashMap::get` for the insertion-overwrites map built above: the
last binding of the key wins. -/
def getParam (params : List (String × String)) (k : String) : Option String :=
  params.reverse.lookup k

/-- The QOTD state touched by the handler: the in-memory message
(`http.qotd.message` behind its lock) and the on-disk message file
`data/qotd/message.txt`. -/
structure QotdState where
  message : String
  disk : String
deriving DecidableEq

/-- Source 403 response bytes. -/
def forbiddenResponse : String :=
  "HTTP/1.1 403 Forbidden\r\nContent-Type: text/plain\r\n\r\nForbidden\n"

/-- Source 404 response bytes. -/
def notFoundResponse : String :=
  "HTTP/1.1 404 Not Found\r\nContent-Type: text/plain\r\n\r\nNot Found\n"

/-- Source `respond` (http.rs lines 73-187) from the point where the request
line and body have been read: split the query off the path, parse the query
parameters, and dispatch on `(path, method)`.  `secretFile` models
`tokio::fs::read_to_string("data/qotd/secret.txt")` (`none` = absent, then
`unwrap_or_default` yields the empty string).  Returns the response bytes and
the updated QOTD state. -/
def respond (secretFile : Option String) (st : QotdState)
    (method rawPath : String) (body : String) : String × QotdState :=
  let pq := splitOnceChar '?' rawPath
  let params := queryParams pq.2
  if pq.1 = "/qotd" ∧ method = "GET" then
    ("HTTP/1.1 200 OK\r\nContent-Type: text/plain\r\n\r\n" ++ st.message, st)
  else if pq.1 = "/qotd" ∧ method = "POST" then
    let expected_secret := secretFile.getD ""
    if expected_secret ≠ "" ∧
        getParam params "secret" = some (strTrim expected_secret) then
      let full_qotd := "Quote of the day:\n" ++ body
      let full_qotd :=
        if strEndsWith full_qotd "\n" then full_qotd else full_qotd ++ "\n"
      ("HTTP/1.1 200 OK\r\nContent-Type: text/plain\r\n\r\nOK\n",
        ⟨full_qotd, full_qotd⟩)
    else
      (forbiddenResponse, st)
  else
    (notFoundResponse, st)

end Http

/-! # Theorems -/

namespace Ssh

/-! ## Codec lemmas -/

theorem readU8_cons (b : Nat) (r : List Nat) : readU8 (b :: r) = some (b, r) :=
  rfl

theorem readU32_u32be (n : Nat) (r : List Nat) :
    readU32 (u32be n ++ r) = some (n % 2 ^ 32, r) := by
  simp only [u32be, List.cons_append, List.nil_append, readU32,
    Option.some.injEq, Prod.mk.injEq, and_true]
  omega

theorem readU32_u32be_of_lt {n : Nat} (h : n < 2 ^ 32) (r : List Nat) :
    readU32 (u32be n ++ r) = some (n, r) := by
  rw [readU32_u32be, Nat.mod_eq_of_lt h]

theorem readExact_append {a : List Nat} {k : Nat} (h : a.length = k)
    (r : List Nat) : readExact k (a ++ r) = some (a, r) := by
  subst h
  simp [readExact, List.take_left, List.drop_left]

theorem read_bytes_write {b : List Nat} (h : b.length < 2 ^ 32)
    (r : List Nat) : read_bytes (write_bytes b ++ r) = some (b, r) := by
  simp only [read_bytes, write_bytes, List.append_assoc,
    readU32_u32be_of_lt h, Option.some_bind]
  exact readExact_append rfl r

theorem read_string_write {b : List Nat} (h : b.length < 2 ^ 32)
    (r : List Nat) : read_string (write_string b ++ r) = some (b, r) :=
  read_bytes_write h r

theorem readBool_write (b : Bool) (r : List Nat) :
    readBool ((if b then 1 else 0) :: r) = some (b, r) := by
  cases b <;> rfl

theorem intercalate_comma_ne_nil {ns : List (List Nat)} (h1 : ns ≠ [])
    (h2 : ns ≠ [[]]) : List.intercalate [44] ns ≠ [] := by
  match ns, h1 with
  | [n], _ =>
      simpa [List.intercalate] using fun h => h2 (by simp [h])
  | n :: m :: rest, _ =>
      simp [List.intercalate, List.intersperse]

theorem read_name_list_write {ns : List (List Nat)} (h : wfNames ns)
    (r : List Nat) : read_name_list (write_name_list ns ++ r) = some (ns, r) := by
  obtain ⟨hfree, hne, hlen⟩ := h
  simp only [read_name_list, write_name_list, read_string_write hlen,
    Option.map_some]
  rcases eq_or_ne ns [] with rfl | hns
  · simp [List.intercalate]
  · have hni := intercalate_comma_ne_nil hns hne
    have hsp := List.splitOn_intercalate ns 44 (fun l hl => hfree l hl) hns
    simp [hni, hsp]

/-! ## Packet framing structure -/

/-- Structure of `write_payload`'s output: a padding count `pad` with
`4 ≤ pad ≤ max(8, block) + 3` making the total length a multiple of
`max(8, block)`, then the buffer laid out as length, padding byte, payload,
zero padding. -/
theorem write_payload_structure (P : List Nat) (b : Option Nat) :
    ∃ pad, 4 ≤ pad ∧ pad ≤ max (b.getD 0) 8 + 3 ∧
      (P.length + 5 + pad) % max (b.getD 0) 8 = 0 ∧
      write_payload P b =
        u32be (P.length + pad + 1) ++
          pad % 256 :: (P ++ List.replicate pad 0) := by
  have hm8 : 8 ≤ max (b.getD 0) 8 := le_max_right _ _
  have hdm := Nat.div_add_mod (P.length + 5) (max (b.getD 0) 8)
  have hrm : (P.length + 5) % max (b.getD 0) 8 < max (b.getD 0) 8 :=
    Nat.mod_lt _ (by omega)
  refine ⟨if max (b.getD 0) 8 - (P.length + 5) % max (b.getD 0) 8 < 4 then
    max (b.getD 0) 8 - (P.length + 5) % max (b.getD 0) 8 + max (b.getD 0) 8
    else max (b.getD 0) 8 - (P.length + 5) % max (b.getD 0) 8,
    ?_, ?_, ?_,
    by simp only [write_payload, List.append_assoc, List.cons_append]⟩
  · split <;> omega
  · split <;> omega
  · split
    · have e : P.length + 5 +
          (max (b.getD 0) 8 - (P.length + 5) % max (b.getD 0) 8 +
            max (b.getD 0) 8) =
          max (b.getD 0) 8 * ((P.length + 5) / max (b.getD 0) 8 + 2) := by
        have expand : max (b.getD 0) 8 * ((P.length + 5) / max (b.getD 0) 8 + 2) =
            max (b.getD 0) 8 * ((P.length + 5) / max (b.getD 0) 8) +
              max (b.getD 0) 8 * 2 := by ring
        omega
      rw [e, Nat.mul_mod_right]
    · have e : P.length + 5 +
          (max (b.getD 0) 8 - (P.length + 5) % max (b.getD 0) 8) =
          max (b.getD 0) 8 * ((P.length + 5) / max (b.getD 0) 8 + 1) := by
        have expand : max (b.getD 0) 8 * ((P.length + 5) / max (b.getD 0) 8 + 1) =
            max (b.getD 0) 8 * ((P.length + 5) / max (b.getD 0) 8) +
              max (b.getD 0) 8 * 1 := by ring
        omega
      rw [e, Nat.mul_mod_right]

/-! ## C9: write_mpint on all-zero inputs -/

theorem write_mpint_none_iff_get (s : List Nat) :
    write_mpint s = none ↔
      s[(s.takeWhile (fun b => b == 0)).length]? = none := by
  unfold write_mpint
  rcases h : s[(s.takeWhile (fun b => b == 0)).length]? with _ | b
  · simp [h]
  · simp only [h]
    split <;> simp

/-- Claim C9: `write_mpint`, the mpint encoder used for the ECDH shared
secret in the exchange hash and in `compute_key`, panics (out-of-bounds
index, modelled as `none`) exactly on the byte strings consisting entirely
of zero octets, the empty string included; on every input with a non-zero
octet it returns a buffer. -/
theorem write_mpint_panics_iff_all_zero (s : List Nat) :
    write_mpint s = none ↔ ∀ b ∈ s, b = 0 := by
  rw [write_mpint_none_iff_get]
  induction s with
  | nil => simp
  | cons a t ih =>
    by_cases ha : a = 0
    · subst ha
      rw [List.takeWhile_cons_of_pos (by simp)]
      simpa using ih
    · rw [List.takeWhile_cons_of_neg (by simpa using ha)]
      simp [ha]

/-- Witness for C9 at concrete inputs: the all-zero string of length 3
panics, and `[0, 1]` succeeds. -/
theorem write_mpint_panics_iff_all_zero_witness :
    write_mpint [0, 0, 0] = none ∧ write_mpint [0, 1] ≠ none :=
  ⟨(write_mpint_panics_iff_all_zero [0, 0, 0]).mpr (by decide),
   fun h => by simpa using (write_mpint_panics_iff_all_zero [0, 1]).mp h⟩

/-! ## C5: the padding policy of write_payload -/

/-- Claim C5 (amended): for every payload whose framed length fits the u32
length field and every optional cipher block size with `max(8, b) ≤ 252`
(so that the padding count fits the u8 padding-length byte), the buffer
returned by `write_payload` satisfies the padding policy: reading back its
length field and padding byte gives `packet_length = payload length +
padding_length + 1`, `packet_length + 4` is a multiple of `max(8, b)`, and
the padding byte is at least 4.  (For larger block sizes the `as u8` cast
wraps and the padding byte can fall below 4; see the counterexample.) -/
theorem write_payload_padding_policy (P : List Nat) (b : Option Nat)
    (hb : max (b.getD 0) 8 ≤ 252) (hP : P.length + 300 < 2 ^ 32) :
    ∃ pad rest, readU8 ((write_payload P b).drop 4) = some (pad, rest) ∧
      4 ≤ pad ∧
      readU32 (write_payload P b) = some (P.length + pad + 1, pad :: rest) ∧
      (P.length + pad + 1 + 4) % max (b.getD 0) 8 = 0 := by
  obtain ⟨pad, h4, hle, hmod, heq⟩ := write_payload_structure P b
  have hp256 : pad % 256 = pad := Nat.mod_eq_of_lt (by omega)
  rw [hp256] at heq
  refine ⟨pad, P ++ List.replicate pad 0, ?_, h4, ?_, ?_⟩
  · rw [heq]
    have h4len : (4 : Nat) = (u32be (P.length + pad + 1)).length := rfl
    rw [h4len, List.drop_left]
    rfl
  · rw [heq, readU32_u32be_of_lt (by omega)]
  · have e2 : P.length + pad + 1 + 4 = P.length + 5 + pad := by omega
    rw [e2]
    exact hmod

/-- Witness for C5 at a concrete input: payload `[1, 2, 3]` with block size
16 (the AES-128 block). -/
theorem write_payload_padding_policy_witness :
    ∃ pad rest,
      readU8 ((write_payload [1, 2, 3] (some 16)).drop 4) = some (pad, rest) ∧
      4 ≤ pad ∧
      readU32 (write_payload [1, 2, 3] (some 16)) =
        some (([1, 2, 3] : List Nat).length + pad + 1, pad :: rest) ∧
      (([1, 2, 3] : List Nat).length + pad + 1 + 4) %
        max ((some 16 : Option Nat).getD 0) 8 = 0 :=
  write_payload_padding_policy [1, 2, 3] (some 16) (by decide) (by decide)

set_option maxRecDepth 8000 in
/-- Counterexample to C5 as stated: with cipher block size 256 and a payload
of 251 zero bytes the padding count is 256, whose `as u8` cast is 0, so the
padding-length byte of the returned buffer is 0 < 4. -/
theorem write_payload_padding_byte_zero_cex :
    (write_payload (List.replicate 251 0) (some 256))[4]? = some 0 ∧
      ¬ 4 ≤ 0 := by
  constructor
  · rfl
  · decide

/-! ## C3: message codec roundtrip -/

theorem readU32_u32be_of_lt_nil {n : Nat} (h : n < 2 ^ 32) :
    readU32 (u32be n) = some (n, []) := by
  simpa using readU32_u32be_of_lt h []

theorem read_bytes_write_nil {b : List Nat} (h : b.length < 2 ^ 32) :
    read_bytes (write_bytes b) = some (b, []) := by
  simpa using read_bytes_write h []

theorem read_string_write_nil {b : List Nat} (h : b.length < 2 ^ 32) :
    read_string (write_string b) = some (b, []) := by
  simpa using read_string_write h []

theorem read_name_list_write_nil {ns : List (List Nat)} (h : wfNames ns) :
    read_name_list (write_name_list ns) = some (ns, []) := by
  simpa using read_name_list_write h []

theorem readBool_write_nil (b : Bool) :
    readBool [if b then 1 else 0] = some (b, []) := by
  cases b <;> rfl

theorem readExact_self {a : List Nat} {k : Nat} (h : a.length = k) :
    readExact k a = some (a, []) := by
  simpa using readExact_append h []

theorem read_message_cons (t : Nat) (l : List Nat) :
    read_message (t :: l) = read_message_body t l := rfl

theorem bindSome {α β : Type} (a : α) (f : α → Option β) :
    (some a >>= f) = f a := rfl

theorem windowChange_ne_ptyReq : (windowChangeBytes = ptyReqBytes) = False := by
  decide

/-- Claim C3 (amended): for every well-formed message — `u32` fields in
range, cookie of 16 octets, names comma-free with the singleton-empty-name
list excluded, byte fields fitting their length prefixes, and every
`ChannelRequest` pairing its extra shape with its request type —
`write_message` succeeds and `read_message` decodes the buffer back to the
message, consuming it entirely.  (A `ChannelRequest` whose extra is the
`None` shape is excluded: its write arm is `todo!()`; see the
counterexample.) -/
theorem write_read_message_roundtrip (m : Message) (h : m.wf) :
    ∃ buf, write_message m = some buf ∧ read_message buf = some (m, []) := by
  cases m with
  | Disconnect rc d lt =>
      simp only [Message.wf, wfU32, wfBytes] at h
      obtain ⟨h1, h2, h3⟩ := h
      refine ⟨_, rfl, ?_⟩
      simp only [read_message_cons, read_message_body,
      bindSome, Option.pure_def,
      List.singleton_append, List.cons_append, List.append_assoc,
      List.nil_append,
      readU32_u32be_of_lt h1,
      read_string_write h2,
      read_string_write_nil h3]
  | Ignore data =>
      simp only [Message.wf, wfU32, wfBytes] at h
      refine ⟨_, rfl, ?_⟩
      simp only [read_message_cons, read_message_body,
      bindSome, Option.pure_def,
      List.singleton_append, List.cons_append, List.append_assoc,
      List.nil_append,
      read_bytes_write_nil h]
  | Unimplemented n =>
      simp only [Message.wf, wfU32, wfBytes] at h
      refine ⟨_, rfl, ?_⟩
      simp only [read_message_cons, read_message_body,
      bindSome, Option.pure_def,
      List.singleton_append, List.cons_append, List.append_assoc,
      List.nil_append,
      readU32_u32be_of_lt_nil h]
  | Debug b msg lt =>
      simp only [Message.wf, wfU32, wfBytes] at h
      obtain ⟨h1, h2⟩ := h
      refine ⟨_, rfl, ?_⟩
      simp only [read_message_cons, read_message_body,
      bindSome, Option.pure_def,
      List.singleton_append, List.cons_append, List.append_assoc,
      List.nil_append,
      readBool_write,
      read_string_write h1,
      read_string_write_nil h2]
  | ServiceRequest sn =>
      simp only [Message.wf, wfU32, wfBytes] at h
      refine ⟨_, rfl, ?_⟩
      simp only [read_message_cons, read_message_body,
      bindSome, Option.pure_def,
      List.singleton_append, List.cons_append, List.append_assoc,
      List.nil_append,
      read_string_write_nil h]
  | ServiceAccept sn =>
      simp only [Message.wf, wfU32, wfBytes] at h
      refine ⟨_, rfl, ?_⟩
      simp only [read_message_cons, read_message_body,
      bindSome, Option.pure_def,
      List.singleton_append, List.cons_append, List.append_assoc,
      List.nil_append,
      read_string_write_nil h]
  | KexInit cookie kex hk encCS encSC macCS macSC compCS compSC langCS langSC fst reserved =>
      simp only [Message.wf, wfU32, wfBytes] at h
      obtain ⟨hc, hn1, hn2, hn3, hn4, hn5, hn6, hn7, hn8, hn9, hn10, hres⟩ := h
      refine ⟨_, rfl, ?_⟩
      simp only [read_message_cons, read_message_body,
      bindSome, Option.pure_def,
      List.singleton_append, List.cons_append, List.append_assoc,
      List.nil_append,
      readExact_append hc,
      read_name_list_write hn1,
      read_name_list_write hn2,
      read_name_list_write hn3,
      read_name_list_write hn4,
      read_name_list_write hn5,
      read_name_list_write hn6,
      read_name_list_write hn7,
      read_name_list_write hn8,
      read_name_list_write hn9,
      read_name_list_write hn10,
      readBool_write,
      readU32_u32be_of_lt_nil hres]
  | NewKeys =>
      refine ⟨_, rfl, ?_⟩
      simp only [read_message_cons, read_message_body,
      bindSome, Option.pure_def,
      List.singleton_append, List.cons_append, List.append_assoc,
      List.nil_append]
  | KexEcdhInit k =>
      simp only [Message.wf, wfU32, wfBytes] at h
      refine ⟨_, rfl, ?_⟩
      simp only [read_message_cons, read_message_body,
      bindSome, Option.pure_def,
      List.singleton_append, List.cons_append, List.append_assoc,
      List.nil_append,
      read_bytes_write_nil h]
  | KexEcdhReply ka kb kc =>
      simp only [Message.wf, wfU32, wfBytes] at h
      obtain ⟨h1, h2, h3⟩ := h
      refine ⟨_, rfl, ?_⟩
      simp only [read_message_cons, read_message_body,
      bindSome, Option.pure_def,
      List.singleton_append, List.cons_append, List.append_assoc,
      List.nil_append,
      read_bytes_write h1,
      read_bytes_write h2,
      read_bytes_write_nil h3]
  | UserauthRequest u sn am =>
      simp only [Message.wf, wfU32, wfBytes] at h
      obtain ⟨h1, h2, h3⟩ := h
      refine ⟨_, rfl, ?_⟩
      simp only [read_message_cons, read_message_body,
      bindSome, Option.pure_def,
      List.singleton_append, List.cons_append, List.append_assoc,
      List.nil_append,
      read_string_write h1,
      read_string_write h2,
      read_string_write_nil h3]
  | UserauthFailure methods ps =>
      simp only [Message.wf, wfU32, wfBytes] at h
      refine ⟨_, rfl, ?_⟩
      simp only [read_message_cons, read_message_body,
      bindSome, Option.pure_def,
      List.singleton_append, List.cons_append, List.append_assoc,
      List.nil_append,
      read_name_list_write h,
      readBool_write_nil]
  | UserauthSuccess =>
      refine ⟨_, rfl, ?_⟩
      simp only [read_message_cons, read_message_body,
      bindSome, Option.pure_def,
      List.singleton_append, List.cons_append, List.append_assoc,
      List.nil_append]
  | UserauthBanner msg lt =>
      simp only [Message.wf, wfU32, wfBytes] at h
      obtain ⟨h1, h2⟩ := h
      refine ⟨_, rfl, ?_⟩
      simp only [read_message_cons, read_message_body,
      bindSome, Option.pure_def,
      List.singleton_append, List.cons_append, List.append_assoc,
      List.nil_append,
      read_string_write h1,
      read_string_write_nil h2]
  | GlobalRequest rn wr =>
      simp only [Message.wf, wfU32, wfBytes] at h
      refine ⟨_, rfl, ?_⟩
      simp only [read_message_cons, read_message_body,
      bindSome, Option.pure_def,
      List.singleton_append, List.cons_append, List.append_assoc,
      List.nil_append,
      read_string_write h,
      readBool_write_nil]
  | RequestSuccess =>
      refine ⟨_, rfl, ?_⟩
      simp only [read_message_cons, read_message_body,
      bindSome, Option.pure_def,
      List.singleton_append, List.cons_append, List.append_assoc,
      List.nil_append]
  | RequestFailure =>
      refine ⟨_, rfl, ?_⟩
      simp only [read_message_cons, read_message_body,
      bindSome, Option.pure_def,
      List.singleton_append, List.cons_append, List.append_assoc,
      List.nil_append]
  | ChannelOpen ct sc iw mp =>
      simp only [Message.wf, wfU32, wfBytes] at h
      obtain ⟨h1, h2, h3, h4⟩ := h
      refine ⟨_, rfl, ?_⟩
      simp only [read_message_cons, read_message_body,
      bindSome, Option.pure_def,
      List.singleton_append, List.cons_append, List.append_assoc,
      List.nil_append,
      read_string_write h1,
      readU32_u32be_of_lt h2,
      readU32_u32be_of_lt h3,
      readU32_u32be_of_lt_nil h4]
  | ChannelOpenConfirmation rc sc iw mp =>
      simp only [Message.wf, wfU32, wfBytes] at h
      obtain ⟨h1, h2, h3, h4⟩ := h
      refine ⟨_, rfl, ?_⟩
      simp only [read_message_cons, read_message_body,
      bindSome, Option.pure_def,
      List.singleton_append, List.cons_append, List.append_assoc,
      List.nil_append,
      readU32_u32be_of_lt h1,
      readU32_u32be_of_lt h2,
      readU32_u32be_of_lt h3,
      readU32_u32be_of_lt_nil h4]
  | ChannelOpenFailure rc reason d lt =>
      simp only [Message.wf, wfU32, wfBytes] at h
      obtain ⟨h1, h2, h3, h4⟩ := h
      refine ⟨_, rfl, ?_⟩
      simp only [read_message_cons, read_message_body,
      bindSome, Option.pure_def,
      List.singleton_append, List.cons_append, List.append_assoc,
      List.nil_append,
      readU32_u32be_of_lt h1,
      readU32_u32be_of_lt h2,
      read_string_write h3,
      read_string_write_nil h4]
  | ChannelWindowAdjust rc bta =>
      simp only [Message.wf, wfU32, wfBytes] at h
      obtain ⟨h1, h2⟩ := h
      refine ⟨_, rfl, ?_⟩
      simp only [read_message_cons, read_message_body,
      bindSome, Option.pure_def,
      List.singleton_append, List.cons_append, List.append_assoc,
      List.nil_append,
      readU32_u32be_of_lt h1,
      readU32_u32be_of_lt_nil h2]
  | ChannelData rc data =>
      simp only [Message.wf, wfU32, wfBytes] at h
      obtain ⟨h1, h2⟩ := h
      refine ⟨_, rfl, ?_⟩
      simp only [read_message_cons, read_message_body,
      bindSome, Option.pure_def,
      List.singleton_append, List.cons_append, List.append_assoc,
      List.nil_append,
      readU32_u32be_of_lt h1,
      read_bytes_write_nil h2]
  | ChannelExtendedData rc code data =>
      simp only [Message.wf, wfU32, wfBytes] at h
      obtain ⟨h1, h2, h3⟩ := h
      refine ⟨_, rfl, ?_⟩
      simp only [read_message_cons, read_message_body,
      bindSome, Option.pure_def,
      List.singleton_append, List.cons_append, List.append_assoc,
      List.nil_append,
      readU32_u32be_of_lt h1,
      readU32_u32be_of_lt h2,
      read_bytes_write_nil h3]
  | ChannelEof rc =>
      simp only [Message.wf, wfU32, wfBytes] at h
      refine ⟨_, rfl, ?_⟩
      simp only [read_message_cons, read_message_body,
      bindSome, Option.pure_def,
      List.singleton_append, List.cons_append, List.append_assoc,
      List.nil_append,
      readU32_u32be_of_lt_nil h]
  | ChannelClose rc =>
      simp only [Message.wf, wfU32, wfBytes] at h
      refine ⟨_, rfl, ?_⟩
      simp only [read_message_cons, read_message_body,
      bindSome, Option.pure_def,
      List.singleton_append, List.cons_append, List.append_assoc,
      List.nil_append,
      readU32_u32be_of_lt_nil h]
  | ChannelRequest rc rt wr extra =>
      simp only [Message.wf, wfU32, wfBytes, ChannelRequestExtra.wfFor] at h
      obtain ⟨h1, h2, h3⟩ := h
      cases extra with
      | Terminal tt w hgt wp hp modes =>
          obtain ⟨rfl, hb1, hb2, hb3, hb4, hb5, hb6⟩ := h3
          refine ⟨_, rfl, ?_⟩
          simp only [read_message_cons, read_message_body,
      bindSome, Option.pure_def,
      List.singleton_append, List.cons_append, List.append_assoc,
      List.nil_append,
            readU32_u32be_of_lt h1, read_string_write h2, readBool_write,
            eq_self_iff_true, if_true,
            read_string_write hb1, readU32_u32be_of_lt hb2,
            readU32_u32be_of_lt hb3, readU32_u32be_of_lt hb4,
            readU32_u32be_of_lt hb5, read_bytes_write_nil hb6]
      | WindowChange w hgt wp hp =>
          obtain ⟨rfl, hb1, hb2, hb3, hb4⟩ := h3
          refine ⟨_, rfl, ?_⟩
          simp only [read_message_cons, read_message_body,
      bindSome, Option.pure_def,
      List.singleton_append, List.cons_append, List.append_assoc,
      List.nil_append,
            readU32_u32be_of_lt h1, read_string_write h2, readBool_write,
            windowChange_ne_ptyReq, if_false, eq_self_iff_true, if_true,
            readU32_u32be_of_lt hb1, readU32_u32be_of_lt hb2,
            readU32_u32be_of_lt hb3, readU32_u32be_of_lt_nil hb4]
      | None => exact h3.elim
  | ChannelSuccess rc =>
      simp only [Message.wf, wfU32, wfBytes] at h
      refine ⟨_, rfl, ?_⟩
      simp only [read_message_cons, read_message_body,
      bindSome, Option.pure_def,
      List.singleton_append, List.cons_append, List.append_assoc,
      List.nil_append,
      readU32_u32be_of_lt_nil h]
  | ChannelFailure rc =>
      simp only [Message.wf, wfU32, wfBytes] at h
      refine ⟨_, rfl, ?_⟩
      simp only [read_message_cons, read_message_body,
      bindSome, Option.pure_def,
      List.singleton_append, List.cons_append, List.append_assoc,
      List.nil_append,
      readU32_u32be_of_lt_nil h]

/-- Witness for C3 at a concrete message: a pty-req `ChannelRequest` with a
`Terminal` extra round-trips. -/
theorem write_read_message_roundtrip_witness :
    ∃ buf,
      write_message (.ChannelRequest 1 ptyReqBytes true
        (.Terminal [120, 116, 101, 114, 109] 80 24 0 0 [])) = some buf ∧
      read_message buf = some
        (.ChannelRequest 1 ptyReqBytes true
          (.Terminal [120, 116, 101, 114, 109] 80 24 0 0 []), []) :=
  write_read_message_roundtrip
    (.ChannelRequest 1 ptyReqBytes true
      (.Terminal [120, 116, 101, 114, 109] 80 24 0 0 [])) (by decide)

/-- Counterexample to C3 as stated: `write_message` of a `ChannelRequest`
whose extra is the `None` shape — the shape the decoder produces for every
request type other than pty-req and window-change, e.g. `exec` — hits the
source's `todo!()` and panics instead of succeeding. -/
theorem write_message_channel_request_none_cex :
    write_message (.ChannelRequest 0 [101, 120, 101, 99] false .None) =
      none := rfl

/-! ## Record-layer lemmas -/

theorem applyKeystream_length (ks : Nat → Nat) (p : Nat) (l : List Nat) :
    (applyKeystream ks p l).length = l.length := by
  induction l generalizing p with
  | nil => rfl
  | cons b rest ih => simp [applyKeystream, ih]

theorem applyKeystream_append (ks : Nat → Nat) (p : Nat) (a b : List Nat) :
    applyKeystream ks p (a ++ b) =
      applyKeystream ks p a ++ applyKeystream ks (p + a.length) b := by
  induction a generalizing p with
  | nil => simp [applyKeystream]
  | cons x rest ih =>
      show (x ^^^ ks p) :: applyKeystream ks (p + 1) (rest ++ b) = _
      rw [ih]
      simp only [List.cons_append, applyKeystream, List.length_cons]
      have : p + 1 + rest.length = p + (rest.length + 1) := by omega
      rw [this]

theorem applyKeystream_applyKeystream (ks : Nat → Nat) (p : Nat)
    (l : List Nat) :
    applyKeystream ks p (applyKeystream ks p l) = l := by
  induction l generalizing p with
  | nil => rfl
  | cons b rest ih =>
      simp [applyKeystream, ih, Nat.xor_assoc]

/-- Decrypt-and-parse of an encrypted record produced by the write path:
given the cleartext packet `write_payload payload (some 16)` encrypted from
keystream offset `p` with a 32-byte tag appended, `read_payload` at the same
offset with any integrity key installed accepts the record, returns exactly
`payload`, consumes the whole input, and checks nothing about the tag. -/
theorem read_payload_of_encrypted (ks : Nat → Nat) (p : Nat)
    (ikR : List Nat) (payload : List Nat) (tag : List Nat)
    (htag : tag.length = 32) (hsz : payload.length + 600 < 2 ^ 32) :
    ∃ pfin, read_payload ks ⟨some p, some ikR⟩
        (applyKeystream ks p (write_payload payload (some 16)) ++ tag) =
      some (payload, ⟨some pfin, some ikR⟩, []) := by
  obtain ⟨pad, h4, hle, hmod, heq⟩ := write_payload_structure payload (some 16)
  have hle' : pad ≤ 19 := by simpa using hle
  have hp256 : pad % 256 = pad := Nat.mod_eq_of_lt (by omega)
  rw [hp256] at heq
  have hL : payload.length + pad + 1 < 2 ^ 32 := by omega
  refine ⟨p + 4 + (payload.length + pad + 1), ?_⟩
  rw [heq, applyKeystream_append]
  have ha4 : (applyKeystream ks p (u32be (payload.length + pad + 1))).length
      = 4 := by rw [applyKeystream_length]; rfl
  have hrest : (applyKeystream ks (p + (u32be (payload.length + pad + 1)).length)
      (pad :: (payload ++ List.replicate pad 0))).length =
      payload.length + pad + 1 := by
    rw [applyKeystream_length]; simp
  simp only [read_payload, List.append_assoc]
  rw [readExact_append ha4]
  simp only [bindSome]
  rw [applyKeystream_applyKeystream]
  rw [readU32_u32be_of_lt_nil hL]
  simp only [bindSome]
  rw [readExact_append hrest]
  simp only [bindSome]
  have hlen4 : (u32be (payload.length + pad + 1)).length = 4 := rfl
  rw [hlen4, applyKeystream_applyKeystream]
  simp only [readU8_cons, bindSome]
  rw [if_neg (by omega)]
  have hplen : payload.length + pad + 1 - pad - 1 = payload.length := by omega
  rw [hplen, readExact_append rfl]
  simp only [bindSome]
  rw [readExact_self (List.length_replicate pad 0)]
  simp only [bindSome, ReadConnection.integrity_key]
  rw [readExact_self htag]
  rfl

/-! ## C1: encrypted write path against read path -/

/-- Claim C1 (amended): for every matching cipher keystream installed on
both sides, every HMAC primitive with 32-byte tags, and every message the
write path can frame, the record produced by
`EncryptedConnection::write_packet` is accepted by
`ReadConnection::read_payload`, the recovered payload is exactly the written
payload, the whole record is consumed, and the sender's per-direction
sequence number advances by exactly one.  The receiver's state after the
read is its cipher offset and its unchanged integrity key — the read path
maintains no receive sequence number (see the counterexample). -/
theorem encrypted_write_read_roundtrip (ks : Nat → Nat)
    (hmacF : List Nat → List Nat → List Nat)
    (htag : ∀ k msg, (hmacF k msg).length = 32)
    (m : Message) (payload : List Nat) (hm : write_message m = some payload)
    (hsz : payload.length + 600 < 2 ^ 32)
    (ikS ikR : List Nat) (p n : Nat) :
    ∃ wire c', EncryptedConnection.write_packet ks hmacF ⟨p, ikS, n⟩ m =
        some (wire, c') ∧
      c'.sequence_number_server_to_client = n + 1 ∧
      ∃ pfin, read_payload ks ⟨some p, some ikR⟩ wire =
        some (payload, ⟨some pfin, some ikR⟩, []) := by
  have hw : EncryptedConnection.write_packet ks hmacF ⟨p, ikS, n⟩ m =
      some (applyKeystream ks p (write_payload payload (some 16)) ++
          hmacF ikS (u32be n ++ write_payload payload (some 16)),
        ⟨p + (write_payload payload (some 16)).length, ikS, n + 1⟩) := by
    simp [EncryptedConnection.write_packet, hm, bindSome]
  obtain ⟨pfin, hr⟩ :=
    read_payload_of_encrypted ks p ikR payload
      (hmacF ikS (u32be n ++ write_payload payload (some 16))) (htag _ _) hsz
  exact ⟨_, _, hw, rfl, pfin, hr⟩

/-- Witness for C1 at a concrete instance: the `NewKeys` message under the
all-zero keystream, zero HMAC, empty keys, offsets and sequence number 0. -/
theorem encrypted_write_read_roundtrip_witness :
    ∃ wire c', EncryptedConnection.write_packet ksZero hmacZero ⟨0, [], 0⟩
        .NewKeys = some (wire, c') ∧
      c'.sequence_number_server_to_client = 0 + 1 ∧
      ∃ pfin, read_payload ksZero ⟨some 0, some []⟩ wire =
        some ([21], ⟨some pfin, some []⟩, []) :=
  encrypted_write_read_roundtrip ksZero hmacZero
    (fun _ _ => by simp [hmacZero]) .NewKeys [21] rfl (by decide) [] [] 0 0

/-- Counterexample to C1 as stated: no function of the receiver's state —
which is only the cipher offset and the integrity key — advances by exactly
one per received packet, so the receiver has no per-direction sequence
number.  Two minimum-size records reach the same state as one 32-byte
record, which would force `f s0 + 2 = f s0 + 1`. -/
theorem no_receive_sequence_number_cex :
    ¬ ∃ f : ReadConnection → Nat,
      ∀ s s', RecvStep s s' → f s' = f s + 1 := by
  rintro ⟨f, hf⟩
  have h1 : RecvStep ⟨some 0, some []⟩ ⟨some 16, some []⟩ :=
    ⟨.NewKeys, 0, 0, _, _, [21], rfl, rfl, by decide⟩
  have h2 : RecvStep ⟨some 16, some []⟩ ⟨some 32, some []⟩ :=
    ⟨.NewKeys, 0, 16, _, _, [21], rfl, rfl, by decide⟩
  have h3 : RecvStep ⟨some 0, some []⟩ ⟨some 32, some []⟩ :=
    ⟨.ChannelData 0 [1, 1, 1, 1, 1, 1, 1], 0, 0, _, _,
      [94, 0, 0, 0, 0, 0, 0, 0, 7, 1, 1, 1, 1, 1, 1, 1], rfl, rfl, by decide⟩
  have e1 := hf _ _ h1
  have e2 := hf _ _ h2
  have e3 := hf _ _ h3
  omega

/-! ## C2: the MAC is read but never verified -/

/-- Claim C2 (code bug): after keys are installed, `read_payload` delivers
the payload for every 32-byte tag whatsoever — the tag bytes are read and
discarded without being compared to any HMAC — so a record whose tag does
not equal HMAC-SHA-256(sequence number ‖ cleartext packet) is accepted
rather than rejected. -/
theorem read_payload_ignores_mac (tag : List Nat) (htag : tag.length = 32) :
    ∃ pfin, read_payload ksZero ⟨some 0, some (List.replicate 32 0)⟩
        (applyKeystream ksZero 0 (write_payload [42] (some 16)) ++ tag) =
      some ([42], ⟨some pfin, some (List.replicate 32 0)⟩, []) :=
  read_payload_of_encrypted ksZero 0 (List.replicate 32 0) [42] tag htag
    (by decide)

/-- Witness for C2 at the failing input: the tag of 32 `0xff` bytes, which
is not the HMAC of anything this connection computed, is accepted and the
payload `[42]` delivered. -/
theorem read_payload_ignores_mac_witness :
    ∃ pfin, read_payload ksZero ⟨some 0, some (List.replicate 32 0)⟩
        (applyKeystream ksZero 0 (write_payload [42] (some 16)) ++
          List.replicate 32 255) =
      some ([42], ⟨some pfin, some (List.replicate 32 0)⟩, []) :=
  read_payload_ignores_mac (List.replicate 32 255) (by decide)

/-! ## C4: the algorithm-negotiation check is missing -/

/-- Claim C4 (code bug): the `connection` loop's handling of the client
KexInit accepts every KexInit unconditionally — the algorithm check is only
a comment — so a client whose first common algorithm entries do not match
the server's fixed choices proceeds to key exchange instead of being
terminated. -/
theorem checkClientKexInit_accepts_all (cookie : List Nat)
    (kex hk encCS encSC macCS macSC compCS compSC langCS langSC :
      List (List Nat)) (fst : Bool) (reserved : Nat) :
    checkClientKexInit (.KexInit cookie kex hk encCS encSC macCS macSC compCS
      compSC langCS langSC fst reserved) = .ok () := rfl

end Ssh

namespace Terminal

/-! ## C6: word wrap against the right edge -/

theorem doFlush_log (rect win : Rectangle) (t : TState) :
    ∃ new, (doFlush rect win t).1.st.log = t.st.log ++ new ∧
      ∀ x ∈ new, emitOk x := by
  unfold doFlush flush_word
  by_cases hwrap : rect.left + (rect.width : Int) <
      t.st.pos.x + (t.word.length : Int)
  · simp only [if_pos hwrap]
    split
    · refine ⟨[(rect, ⟨rect.left, t.st.pos.y + 1⟩, t.word)], rfl, ?_⟩
      intro x hx
      simp only [List.mem_singleton] at hx
      subst hx
      exact Or.inr rfl
    · exact ⟨[], by simp, by simp⟩
  · simp only [if_neg hwrap]
    split
    · refine ⟨[(rect, t.st.pos, t.word)], rfl, ?_⟩
      intro x hx
      simp only [List.mem_singleton] at hx
      subst hx
      exact Or.inl (by push_neg at hwrap; exact hwrap)
    · exact ⟨[], by simp, by simp⟩

theorem textStep_log (rect win : Rectangle) (t : TState) (c : Char) :
    ∃ new, (textStep rect win t c).st.log = t.st.log ++ new ∧
      ∀ x ∈ new, emitOk x := by
  obtain ⟨new, hn, hok⟩ := doFlush_log rect win t
  unfold textStep
  by_cases h1 : c = ' '
  · simp only [if_pos h1]
    refine ⟨new, ?_, hok⟩
    cases hiw : (doFlush rect win t).2 <;> simp [hiw, hn]
  · simp only [if_neg h1]
    by_cases h2 : c = '\t'
    · simp only [if_pos h2]
      refine ⟨new, ?_, hok⟩
      cases hiw : (doFlush rect win t).2 <;> simp [hiw, hn]
    · simp only [if_neg h2]
      by_cases h3 : c = '\n'
      · simp only [if_pos h3]
        exact ⟨new, hn, hok⟩
      · simp only [if_neg h3]
        exact ⟨[], by simp, by simp⟩

theorem foldl_textStep_log (rect win : Rectangle) (cs : List Char)
    (t : TState) :
    ∃ new, (cs.foldl (textStep rect win) t).st.log = t.st.log ++ new ∧
      ∀ x ∈ new, emitOk x := by
  induction cs generalizing t with
  | nil => exact ⟨[], by simp, by simp⟩
  | cons c rest ih =>
      obtain ⟨n1, h1, h1ok⟩ := textStep_log rect win t c
      obtain ⟨n2, h2, h2ok⟩ := ih (textStep rect win t c)
      refine ⟨n1 ++ n2, ?_, ?_⟩
      · simp only [List.foldl_cons, h2, h1, List.append_assoc]
      · intro x hx
        rcases List.mem_append.mp hx with h | h
        exacts [h1ok x h, h2ok x h]

theorem foldl_children_log {es : List Element} (rect win : Rectangle)
    (ih : ∀ c : {x // x ∈ es}, ∀ (rect2 win2 : Rectangle) (st : RState),
      ∃ new, (render c.1 rect2 win2 st).2.log = st.log ++ new ∧
        ∀ x ∈ new, emitOk x)
    (L : List {x // x ∈ es}) (acc : String × RState) :
    ∃ new, (L.foldl (fun acc c =>
        ((acc.1 ++ (render c.1 rect win acc.2).1,
          (render c.1 rect win acc.2).2) : String × RState)) acc).2.log =
      acc.2.log ++ new ∧ ∀ x ∈ new, emitOk x := by
  induction L generalizing acc with
  | nil => exact ⟨[], by simp, by simp⟩
  | cons c rest ihL =>
      obtain ⟨n1, h1, h1ok⟩ := ih c rect win acc.2
      obtain ⟨n2, h2, h2ok⟩ := ihL
        (acc.1 ++ (render c.1 rect win acc.2).1, (render c.1 rect win acc.2).2)
      refine ⟨n1 ++ n2, ?_, ?_⟩
      · simp only [List.foldl_cons, h2, h1, List.append_assoc]
      · intro x hx
        rcases List.mem_append.mp hx with h | h
        exacts [h1ok x h, h2ok x h]

theorem render_log (e : Element) (rect win : Rectangle) (st : RState) :
    ∃ new, (render e rect win st).2.log = st.log ++ new ∧
      ∀ x ∈ new, emitOk x := by
  cases e with
  | Text s =>
      simp only [render]
      obtain ⟨n2, h2, h2ok⟩ :=
        doFlush_log rect win (s.data.foldl (textStep rect win) ⟨"", [], st⟩)
      obtain ⟨n1, h1, h1ok⟩ := foldl_textStep_log rect win s.data ⟨"", [], st⟩
      refine ⟨n1 ++ n2, ?_, ?_⟩
      · rw [h2, h1]
        simp [List.append_assoc]
      · intro x hx
        rcases List.mem_append.mp hx with h | h
        exacts [h1ok x h, h2ok x h]
  | HorizontallyCentered inner =>
      simp only [render]
      exact render_log inner _ _ _
  | VerticallyCentered inner =>
      simp only [render]
      exact render_log inner _ _ _
  | RectangleE els rct =>
      simp only [render]
      exact foldl_children_log rct win
        (fun c rect2 win2 st2 => render_log c.1 rect2 win2 st2)
        els.attach ("", st)
  | Container els =>
      simp only [render]
      exact foldl_children_log rect win
        (fun c rect2 win2 st2 => render_log c.1 rect2 win2 st2)
        els.attach ("", st)
  | Link inner location =>
      simp only [render]
      obtain ⟨new, hn, hok⟩ := render_log inner rect win st
      exact ⟨new, hn, hok⟩
  | ExternalLink inner url =>
      simp only [render]
      exact render_log inner _ _ _
  | Formatted inner format =>
      simp only [render]
      exact render_log inner _ _ _
termination_by sizeOf e
decreasing_by
  all_goals simp_wf
  all_goals first
    | omega
    | (have hlt := List.sizeOf_lt_of_mem c.2; omega)

/-- Claim C6 (amended): (1) for every element tree, enclosing rectangle,
window and starting state, every word the render pass writes whose length is
at most the width of the rectangle in force ends at or before that
rectangle's right edge (a word that would cross is moved to the next line;
only a word longer than the rectangle's width still overflows — see the
counterexample); (2) a newline character in a `Text` element always starts a
new visual line: after the pending word is flushed, x returns to the
rectangle's left edge and y advances by exactly one. -/
theorem word_wrap_and_newline :
    (∀ (e : Element) (rect win : Rectangle) (st : RState) (r : Rectangle)
        (p : Position) (w : List Char),
        (r, p, w) ∈ (render e rect win st).2.log → (r, p, w) ∉ st.log →
        w.length ≤ r.width →
        p.x + (w.length : Int) ≤ r.left + (r.width : Int)) ∧
    (∀ (s1 s2 : List Char) (rect win : Rectangle) (t : TState),
        (s1 ++ '\n' :: s2).foldl (textStep rect win) t =
          s2.foldl (textStep rect win)
            (textStep rect win (s1.foldl (textStep rect win) t) '\n') ∧
        (textStep rect win (s1.foldl (textStep rect win) t) '\n').st.pos.x =
          rect.left ∧
        (textStep rect win (s1.foldl (textStep rect win) t) '\n').st.pos.y =
          (doFlush rect win (s1.foldl (textStep rect win) t)).1.st.pos.y +
            1) := by
  constructor
  · intro e rect win st r p w hmem hnot hlen
    obtain ⟨new, hn, hok⟩ := render_log e rect win st
    rw [hn] at hmem
    rcases List.mem_append.mp hmem with h | h
    · exact absurd h hnot
    · rcases hok _ h with h' | h'
      · exact h'
      · simp only at h'
        rw [h']
        have : (w.length : Int) ≤ (r.width : Int) := by exact_mod_cast hlen
        omega
  · intro s1 s2 rect win t
    refine ⟨by simp [List.foldl_append], ?_, ?_⟩ <;>
      simp [textStep]

/-- Witness for C6 at a concrete instance: rendering the word `ab` in a
width-10 rectangle logs the emission at column 0 of row 0, and part (1)
places it within the right edge; part (2) is instanced on the text
`a\n` split around its newline. -/
theorem word_wrap_and_newline_witness :
    ((⟨0, 0⟩ : Position).x + ((['a', 'b'] : List Char).length : Int) ≤
      (⟨0, 0, 10, 5⟩ : Rectangle).left +
        ((⟨0, 0, 10, 5⟩ : Rectangle).width : Int)) ∧
    (textStep ⟨0, 0, 10, 5⟩ ⟨0, 0, 10, 5⟩
        (['a'].foldl (textStep ⟨0, 0, 10, 5⟩ ⟨0, 0, 10, 5⟩)
          ⟨"", [], ⟨⟨0, 0⟩, ⟨[], none⟩, []⟩⟩) '\n').st.pos.x =
      (⟨0, 0, 10, 5⟩ : Rectangle).left := by
  constructor
  · refine word_wrap_and_newline.1 (.Text "ab") ⟨0, 0, 10, 5⟩ ⟨0, 0, 10, 5⟩
      ⟨⟨0, 0⟩, ⟨[], none⟩, []⟩ ⟨0, 0, 10, 5⟩ ⟨0, 0⟩ ['a', 'b'] ?_ ?_ ?_
    · simp only [render]
      decide
    · decide
    · decide
  · exact (word_wrap_and_newline.2 ['a'] [] ⟨0, 0, 10, 5⟩ ⟨0, 0, 10, 5⟩
      ⟨"", [], ⟨⟨0, 0⟩, ⟨[], none⟩, []⟩⟩).2.1

/-- Counterexample to C6 as stated: the four-letter word `abcd` rendered in
a rectangle of width 3 wraps to the next line and is still written across
the right edge (it occupies columns 0-3 while the right edge is at
column 3). -/
theorem word_crosses_right_edge_cex :
    ∃ (r : Rectangle) (p : Position) (w : List Char),
      (r, p, w) ∈ (render (.Text "abcd") ⟨0, 0, 3, 5⟩ ⟨0, 0, 3, 5⟩
          ⟨⟨0, 0⟩, ⟨[], none⟩, []⟩).2.log ∧
        r.left + (r.width : Int) < p.x + (w.length : Int) := by
  refine ⟨⟨0, 0, 3, 5⟩, ⟨0, 1⟩, ['a', 'b', 'c', 'd'], ?_, by decide⟩
  simp only [render]
  decide

end Terminal

namespace Gemini

/-! ## C7: Gemini URL validation order and bytes -/

/-- Claim C7: validation of a parsed Gemini request URL is applied in order
— scheme, then host, then port — each failure yielding the source's `53`
response (exactly `53 Host doesn't match\r\n` for a host mismatch), and a
URL passing all three checks is dispatched to the content lookup on its
path. -/
theorem respond_validation :
    (∀ (g : Gemini) (fs : String → Option String) (mime : String → String)
        (url : Url), url.scheme ≠ "gemini" →
        respond g fs mime url = "53 Request is not a Gemini URL\r\n") ∧
    (∀ (g : Gemini) (fs : String → Option String) (mime : String → String)
        (url : Url), url.scheme = "gemini" → url.host ≠ some HOSTNAME →
        respond g fs mime url = "53 Host doesn\x27t match\r\n") ∧
    (∀ (g : Gemini) (fs : String → Option String) (mime : String → String)
        (url : Url), url.scheme = "gemini" → url.host = some HOSTNAME →
        url.port.getD BIND_PORT ≠ BIND_PORT →
        respond g fs mime url = "53 Port doesn\x27t match\r\n") ∧
    (∀ (g : Gemini) (fs : String → Option String) (mime : String → String)
        (url : Url), url.scheme = "gemini" → url.host = some HOSTNAME →
        url.port.getD BIND_PORT = BIND_PORT →
        respond g fs mime url = respondLookup g fs mime url.path) := by
  refine ⟨?_, ?_, ?_, ?_⟩
  · intro g fs mime url h
    simp [respond, h]
  · intro g fs mime url hs hh
    simp [respond, hs, hh]
  · intro g fs mime url hs hh hp
    simp [respond, hs, hh, hp]
  · intro g fs mime url hs hh hp
    simp [respond, hs, hh, hp]

/-- Witness for C7 at concrete URLs: an `http` URL, a wrong-host URL, a
wrong-port URL, and a valid `/blog` URL. -/
theorem respond_validation_witness :
    respond ⟨"B", [], "P"⟩ (fun _ => none) (fun _ => "text/plain")
        ⟨"http", some "matdoes.dev", none, "/"⟩ =
      "53 Request is not a Gemini URL\r\n" ∧
    respond ⟨"B", [], "P"⟩ (fun _ => none) (fun _ => "text/plain")
        ⟨"gemini", some "example.invalid", none, "/"⟩ =
      "53 Host doesn\x27t match\r\n" ∧
    respond ⟨"B", [], "P"⟩ (fun _ => none) (fun _ => "text/plain")
        ⟨"gemini", some "matdoes.dev", some 70, "/"⟩ =
      "53 Port doesn\x27t match\r\n" ∧
    respond ⟨"B", [], "P"⟩ (fun _ => none) (fun _ => "text/plain")
        ⟨"gemini", some "matdoes.dev", none, "/blog"⟩ =
      respondLookup ⟨"B", [], "P"⟩ (fun _ => none) (fun _ => "text/plain")
        "/blog" :=
  ⟨respond_validation.1 _ _ _ _ (by decide),
   respond_validation.2.1 _ _ _ _ rfl (by decide),
   respond_validation.2.2.1 _ _ _ _ rfl rfl (by decide),
   respond_validation.2.2.2 _ _ _ _ rfl rfl rfl⟩

end Gemini

namespace Gopher

/-! ## C8: the Gopher blog index menu line -/

set_option maxRecDepth 40000 in
/-- Claim C8 (amended): for a site with one post of slug `p`, title `T` and
date `2024-05-06`, the Gopher response to the request `/blog` is the
precomputed blog menu; that menu contains the line
`12024-05-06 - T\t/p\tmatdoes.dev\t70\r\n` — the type character `1` is
followed directly by the date, with no space — and the whole menu ends with
`\r\n.` (a blank line and a bare dot), not with `.\r\n`.  (See the
counterexample for the claim's spacing and terminator.) -/
theorem blog_menu_amended (idx proj : String)
    (posts : List (String × String)) (fs : String → Option String) :
    respond ⟨idx, blog_content [⟨"T", "p", "2024-05-06"⟩], posts, proj⟩ fs
        "/blog" = blog_content [⟨"T", "p", "2024-05-06"⟩] ∧
      "12024-05-06 - T\t/p\tmatdoes.dev\t70\r\n".data <:+:
        (blog_content [⟨"T", "p", "2024-05-06"⟩]).data ∧
      "\r\n.".data <:+ (blog_content [⟨"T", "p", "2024-05-06"⟩]).data := by
  refine ⟨?_, by decide, by decide⟩
  simp [respond]

set_option maxRecDepth 40000 in
/-- Counterexample to C8 as stated: the menu line does not have a space
after the type character (the code formats `1{display}` directly), and the
menu does not end with `.\r\n` (the `Display` impl appends `\r\n` and then
the dot). -/
theorem blog_menu_cex :
    ¬ ("1 2024-05-06 - T\t/p\tmatdoes.dev\t70\r\n".data <:+:
        (blog_content [⟨"T", "p", "2024-05-06"⟩]).data ∧
      ".\r\n".data <:+ (blog_content [⟨"T", "p", "2024-05-06"⟩]).data) := by
  decide

end Gopher

namespace Http

/-! ## C10: POST /qotd with an absent or empty secret file -/

/-- Claim C10: when the secret file is absent (`none`) or empty, every
`POST /qotd` request — whatever its query string, including an empty
`secret` parameter, and whatever its body — receives the 403 Forbidden
response, and both the in-memory QOTD message and the on-disk message file
are left unchanged. -/
theorem post_qotd_forbidden (secretFile : Option String)
    (hs : secretFile = none ∨ secretFile = some "") (st : QotdState)
    (rawPath : String) (hp : (splitOnceChar '?' rawPath).1 = "/qotd")
    (body : String) :
    respond secretFile st "POST" rawPath body = (forbiddenResponse, st) := by
  rcases hs with rfl | rfl <;> simp [respond, hp]

/-- Witness for C10 at a concrete request: no secret file,
`POST /qotd?secret=` with an empty secret parameter. -/
theorem post_qotd_forbidden_witness :
    respond none ⟨"old message", "old disk"⟩ "POST" "/qotd?secret="
        "new quote" = (forbiddenResponse, ⟨"old message", "old disk"⟩) :=
  post_qotd_forbidden none (Or.inl rfl) ⟨"old message", "old disk"⟩
    "/qotd?secret=" (by decide) "new quote"

end Http
